import Mathlib

/-!
Verification development for the SEFI@Home work-unit lifecycle engine.

The definitions below are a shallow embedding of the Python source:

* `src/sefi/generator/units.py` — `WorkUnit` validation, the
  `WorkUnitGenerator` ledger (`mark_unit_assigned`, `mark_unit_complete`,
  `generate_unit`, `get_status`), time-window selection and the corpus
  filters.
* `src/sefi/validation/layer.py` — the PII / provenance / deduplication
  validation pipeline, including the PII regular expressions (embedded as a
  small backtracking matcher with Python `re` semantics for these patterns).
* `src/sefi/db/efta.py` — `build_url`.
* `src/sefi/store/findings.py` — `store_finding` and the accepted-finding
  lookup used by deduplication.

Modelling conventions:

* Python dicts become insertion-ordered association lists
  (`List (String × α)`) with `dlookup` / `dset` / `derase`; Python sets and
  frozensets become lists used purely through membership (`setInsert`,
  `setDiff`, `setUnion`).
* Python exceptions become `Except`; distinct raise sites get distinct
  constructors of error inductives, standing for the formatted message
  strings of the source.
* Machine-generated identifiers (`uuid.uuid4().hex`) and wall-clock strings
  (`datetime.now(...)`) are passed in as explicit parameters; uuid freshness
  becomes an explicit hypothesis where a property depends on it.
* `date` values are modelled as `Int` day numbers (the `.days` arithmetic of
  `datetime.date`); a record whose `date` string is absent or unparseable is
  modelled with `none`, matching the skip behaviour of `_parse_date_field`
  call sites.
-/

deriving instance DecidableEq for Except

/-! ## Association-list dictionaries (Python `dict`) -/

/-- Lookup in an insertion-ordered association list (Python `d.get(k)` /
`k in d`). -/
def dlookup {α : Type} : List (String × α) → String → Option α
  | [], _ => none
  | (k, v) :: rest, key => if k = key then some v else dlookup rest key

/-- Python `d[k] = v`: replace in place when the key exists, otherwise append
(insertion order preserved, as for CPython dicts). -/
def dset {α : Type} : List (String × α) → String → α → List (String × α)
  | [], key, v => [(key, v)]
  | (k, w) :: rest, key, v =>
      if k = key then (k, v) :: rest else (k, w) :: dset rest key v

/-- Python `del d[k]` / `d.pop(k, default)` key removal. -/
def derase {α : Type} : List (String × α) → String → List (String × α)
  | [], _ => []
  | (k, v) :: rest, key => if k = key then derase rest key else (k, v) :: derase rest key

/-- Keys of a dictionary, in insertion order. -/
def dkeys {α : Type} (d : List (String × α)) : List String := d.map Prod.fst

/-! ## List-backed sets (Python `set` / `frozenset`) -/

/-- Python `s.add(x)`: no-op when already present. -/
def setInsert (s : List String) (x : String) : List String :=
  if x ∈ s then s else s ++ [x]

/-- Python `s -= t`: remove every member of `t`. -/
def setDiff (s t : List String) : List String :=
  s.filter (fun x => decide (x ∉ t))

/-- Python `s |= t`: add the members of `t` not already present. -/
def setUnion (s t : List String) : List String :=
  t.foldl setInsert s

/-! ## Python `int(...)` conversion (used by `_filter_relationships`,
`_relationship_to_doc_ref` and `_efta_to_int`)

`int` on a string strips leading/trailing whitespace, accepts an optional
sign, then decimal digits with single underscores allowed between digits. -/

/-- Python whitespace (`str.strip()` / `\\s`, ASCII reading: space, tab,
newline, CR, vertical tab, form feed). -/
def isSpaceChar (c : Char) : Bool :=
  c = ' ' || c = '\t' || c = '\n' || c = '\r' || c = Char.ofNat 11 || c = Char.ofNat 12

/-- `str.strip()` on a character list. -/
def pyStrip (l : List Char) : List Char :=
  ((l.dropWhile isSpaceChar).reverse.dropWhile isSpaceChar).reverse

/-- `str.strip()` producing a string. -/
def pyStripStr (s : String) : String := String.mk (pyStrip s.data)

/-- `not s.strip()`: blank after stripping. -/
def strBlank (s : String) : Bool := (pyStrip s.data).isEmpty

/-- Digits with optional single underscores between digits (Python integer
literal body), accumulating the value.  `none` models `ValueError`. -/
def pyDigits : Nat → List Char → Option Nat
  | acc, [] => some acc
  | acc, c :: cs =>
      if c.isDigit then pyDigits (acc * 10 + (c.toNat - 48)) cs
      else if c = '_' then
        match cs with
        | d :: ds => if d.isDigit then pyDigits (acc * 10 + (d.toNat - 48)) ds else none
        | [] => none
      else none

/-- Body of a Python integer literal: at least one digit, underscores only
between digits. -/
def pyDigitsStart : List Char → Option Nat
  | [] => none
  | c :: cs => if c.isDigit then pyDigits (c.toNat - 48) cs else none

/-- Python `int(s)` for a string argument: `none` models `ValueError`. -/
def pyStrToInt (s : String) : Option Int :=
  match pyStrip s.data with
  | '+' :: rest => (pyDigitsStart rest).map Int.ofNat
  | '-' :: rest => (pyDigitsStart rest).map (fun n => -(n : Int))
  | l => (pyDigitsStart l).map Int.ofNat

/-! ## Generator constants (`src/sefi/generator/units.py`) -/

/-- Verbatim de-anonymization prohibition (`DE_ANON_PROHIBITION`). -/
def deAnonProhibition : String :=
  "Do not attempt to infer or recover redacted content. Analyze patterns only."

/-- `_EXCLUDED_SUFFIXES` — media file-type suffixes excluded by EC-002. -/
def excludedSuffixes : List String :=
  [".jpg", ".jpeg", ".png", ".gif", ".bmp", ".tiff", ".tif",
   ".mp4", ".avi", ".mov", ".mkv", ".wmv", ".flv", ".webm",
   ".mp3", ".wav", ".aac", ".flac"]

/-- `_DS10_DATASET`. -/
def ds10Dataset : Int := 10

/-- `_DC_BATCH_MIN`. -/
def dcBatchMin : Nat := 20

/-- `_DC_BATCH_MAX`. -/
def dcBatchMax : Nat := 50

/-- `_DC_WINDOW_DAYS`. -/
def dcWindowDays : Int := 30

/-- The DOJ PDF URL prefix `_doj_prefix` tested by the `WorkUnit` validators. -/
def dojPrefix : String := "https://www.justice.gov/epstein/files/DataSet%20"

/-! ## `sefi.db.efta.build_url` -/

/-- Python `f"{num:08d}"`: zero-pad a natural number to at least 8 digits. -/
def pad8 (n : Nat) : String :=
  let s := toString n
  if s.length < 8 then String.mk (List.replicate (8 - s.length) '0') ++ s else s

/-- `build_url(efta_number, dataset)` — the `_URL_TEMPLATE` instantiation.
This is the generator's default injected `url_builder`. -/
def buildUrl (eftaNumber : Nat) (dataset : Int) : String :=
  dojPrefix ++ toString dataset ++ "/EFTA" ++ pad8 eftaNumber ++ ".pdf"

/-! ## Substring containment (Python `in` on strings) -/

/-- `needle` is a prefix of `hay` (character lists). -/
def charsHavePre : List Char → List Char → Bool
  | [], _ => true
  | _ :: _, [] => false
  | a :: as, b :: bs => a = b && charsHavePre as bs

/-- `needle` occurs somewhere in `hay` (character lists). -/
def charsContain : List Char → List Char → Bool
  | hay, needle =>
      match hay with
      | [] => needle.isEmpty
      | _ :: t => charsHavePre needle hay || charsContain t needle

/-- Python `needle in hay` for strings. -/
def strContains (hay needle : String) : Bool :=
  charsContain hay.data needle.data

/-- Python `s.startswith(pre)`. -/
def strStartsWith (s pre : String) : Bool := charsHavePre pre.data s.data

/-- Python `s.endswith(post)`. -/
def strEndsWith (s post : String) : Bool :=
  charsHavePre post.data.reverse s.data.reverse

/-- Python `s.lower()` (ASCII). -/
def strLower (s : String) : String := String.mk (s.data.map Char.toLower)

/-- Python `s.upper()` (ASCII). -/
def strUpper (s : String) : String := String.mk (s.data.map Char.toUpper)

/-- `int(...)` after an `isdigit()` guard: value of an all-digit string. -/
def digitsToNat? (l : List Char) : Option Nat :=
  if l.isEmpty then none
  else if l.all Char.isDigit then
    some (l.foldl (fun acc c => acc * 10 + (c.toNat - 48)) 0)
  else none

/-! ## Instruction templates (generated instruction text, with the
prohibition appended by the f-string) -/

/-- Instructions of a `verify_finding` unit (`_build_verify_unit`). -/
def verifyInstructions : String :=
  "Review the cited DOJ PDF document(s) at the URLs provided in " ++
  "`input.efta_urls`. Determine whether the document supports, " ++
  "disputes, or provides insufficient evidence for the claim in " ++
  "`input.claim`. Return a structured JSON result with fields: " ++
  "`verdict` (one of: verified, disputed, insufficient_evidence), " ++
  "`reasoning` (string), and `citations` (list of objects with " ++
  "`efta_number`, optional `page_number`, and optional `quote`). " ++
  deAnonProhibition

/-- Instructions of a `decision_chain` unit (`_build_decision_chain_unit`). -/
def dcInstructions : String :=
  "You have been provided with a batch of 20–50 DOJ document references " ++
  "from a single 30-day time window. Using the PDF URLs in " ++
  "`input.data[*].url`, fetch and read each document. Map the " ++
  "communication graph: identify who communicated with whom, when, and " ++
  "on what topic. Return a structured JSON result with fields: " ++
  "`communication_graph` (list of objects, each with `from`, `to`, " ++
  "`when` (ISO 8601 date), `topic`, and `efta_reference`) and " ++
  "`patterns_observed` (string summarising recurring patterns). " ++
  deAnonProhibition

/-! ## WorkUnit data model -/

/-- `constraints` dict; the three keys required by `__post_init__` are the
structure fields, so the key-presence check is satisfied by construction. -/
structure Constraints where
  max_output_tokens : Int
  pii_filter : Bool
  requires_quorum : Bool
deriving Repr, DecidableEq

/-- `_VERIFY_CONSTRAINTS`. -/
def verifyConstraints : Constraints :=
  { max_output_tokens := 2000, pii_filter := true, requires_quorum := false }

/-- `_DC_CONSTRAINTS`. -/
def dcConstraints : Constraints :=
  { max_output_tokens := 8000, pii_filter := true, requires_quorum := true }

/-- A document reference dict for `decision_chain` `input.data`.  The `date`
field is the parsed day number of the source relationship record (`none`
when the record had no usable date; such refs never enter a unit). -/
structure DocRef where
  efta_number : String
  url : String
  date : Option Int := none
  relationship_type : Option String := none
  source_entity : Option String := none
  target_entity : Option String := none
deriving Repr, DecidableEq

/-- `input` dict of a `verify_finding` unit. -/
structure VerifyInput where
  claim : String
  cited_eftas : List String
  efta_urls : List String
  source_verified : Bool
deriving Repr, DecidableEq

/-- `input` dict of a `decision_chain` unit.  `time_window_start` /
`time_window_end` are day numbers (the dates serialised by `isoformat()`,
which always round-trip through `date.fromisoformat`). -/
structure DCInput where
  time_window_start : Int
  time_window_end : Int
  data : List DocRef
deriving Repr, DecidableEq

/-- The `input` payload variants. -/
inductive UnitInput where
  | verify (v : VerifyInput)
  | dc (d : DCInput)
deriving Repr, DecidableEq

/-- The `WorkUnit` dataclass fields. -/
structure WorkUnit where
  unit_id : String
  type : String
  path : Int
  difficulty : String
  scaling : String
  optimal_batch : String
  input : UnitInput
  instructions : String
  constraints : Constraints
  deadline : String
  source_verified : Bool
deriving Repr, DecidableEq

/-- One constructor per `raise` site of `WorkUnit.__post_init__` and its two
payload validators; each stands for the formatted message of that site. -/
inductive WErr where
  | emptyUnitId
  | emptyType
  | badPath
  | badDifficulty
  | badScaling
  | emptyOptimalBatch
  | inputShape
  | verifyEmptyClaim
  | verifyEmptyCited
  | verifyBadEfta (efta : String)
  | verifyUrlsLength (urls cited : Nat)
  | verifyBadUrl (url : String)
  | dcWindowOrder
  | dcWindowTooLong (days : Int)
  | dcDataCount (n : Nat)
  | dcBadEfta (efta : String)
  | dcBadUrl (url : String)
  | emptyInstructions
  | missingProhibition
  | emptyDeadline
deriving Repr, DecidableEq

/-- The per-element `cited_eftas` loop of `_validate_verify_input`: raise at
the first element that is not an `EFTA`-prefixed 12-character string.  (The
source checks only prefix and total length, not that the suffix is digits.) -/
def checkCitedEftas : List String → Except WErr Unit
  | [] => .ok ()
  | e :: rest =>
      if strStartsWith e "EFTA" && e.data.length = 12 then checkCitedEftas rest
      else .error (.verifyBadEfta e)

/-- The per-element `efta_urls` loop of `_validate_verify_input`. -/
def checkEftaUrls : List String → Except WErr Unit
  | [] => .ok ()
  | u :: rest =>
      if strStartsWith u dojPrefix then checkEftaUrls rest
      else .error (.verifyBadUrl u)

/-- `WorkUnit._validate_verify_input`. -/
def validateVerifyInput (v : VerifyInput) : Except WErr Unit :=
  if strBlank v.claim then .error .verifyEmptyClaim
  else if v.cited_eftas.length = 0 then .error .verifyEmptyCited
  else
    match checkCitedEftas v.cited_eftas with
    | .error e => .error e
    | .ok _ =>
        if v.efta_urls.length ≠ v.cited_eftas.length then
          .error (.verifyUrlsLength v.efta_urls.length v.cited_eftas.length)
        else checkEftaUrls v.efta_urls

/-- The per-element `data` loop of `_validate_decision_chain_input`. -/
def checkDocRefs : List DocRef → Except WErr Unit
  | [] => .ok ()
  | r :: rest =>
      if !(strStartsWith r.efta_number "EFTA" && r.efta_number.data.length = 12) then
        .error (.dcBadEfta r.efta_number)
      else if !(strStartsWith r.url dojPrefix) then .error (.dcBadUrl r.url)
      else checkDocRefs rest

/-- `WorkUnit._validate_decision_chain_input`.  The window fields are day
numbers, so the ISO-8601 parse step always succeeds and is omitted. -/
def validateDCInput (d : DCInput) : Except WErr Unit :=
  if d.time_window_end < d.time_window_start then .error .dcWindowOrder
  else if d.time_window_end - d.time_window_start > dcWindowDays then
    .error (.dcWindowTooLong (d.time_window_end - d.time_window_start))
  else if !(dcBatchMin ≤ d.data.length && d.data.length ≤ dcBatchMax) then
    .error (.dcDataCount d.data.length)
  else checkDocRefs d.data

/-- The type-specific `input` dispatch of `__post_init__` (a payload whose
shape disagrees with the `type` string fails the `input_dict.get` checks of
the matching validator). -/
def validateUnitInput (u : WorkUnit) : Except WErr Unit :=
  if u.type = "verify_finding" then
    match u.input with
    | .verify v => validateVerifyInput v
    | .dc _ => .error .inputShape
  else if u.type = "decision_chain" then
    match u.input with
    | .dc d => validateDCInput d
    | .verify _ => .error .inputShape
  else .ok ()

/-- `WorkUnit.__post_init__`, as a validator over the assembled fields. -/
def validateWorkUnit (u : WorkUnit) : Except WErr Unit :=
  if strBlank u.unit_id then .error .emptyUnitId
  else if strBlank u.type then .error .emptyType
  else if !(1 ≤ u.path && u.path ≤ 5) then .error .badPath
  else if !(u.difficulty = "low" || u.difficulty = "medium" || u.difficulty = "high") then
    .error .badDifficulty
  else if !(u.scaling = "linear" || u.scaling = "multiplying" || u.scaling = "plateau" ||
      u.scaling = "aggregation") then .error .badScaling
  else if strBlank u.optimal_batch then .error .emptyOptimalBatch
  else
    match validateUnitInput u with
    | .error e => .error e
    | .ok _ =>
        if strBlank u.instructions then .error .emptyInstructions
        else if !strContains u.instructions deAnonProhibition then .error .missingProhibition
        else if strBlank u.deadline then .error .emptyDeadline
        else .ok ()

/-- Dataclass construction: build the record, run `__post_init__`, and return
the unit only when validation passes (a raising constructor never yields a
value in Python). -/
def mkWorkUnit (u : WorkUnit) : Except WErr WorkUnit :=
  match validateWorkUnit u with
  | .error e => .error e
  | .ok _ => .ok u

/-! ## Source records -/

/-- A JSON scalar that can sit in a record's `dataset` / `primary_dataset`
slot: an integer or a string (the values `int(...)` is applied to). -/
inductive DSVal where
  | int (n : Int)
  | str (s : String)
deriving Repr, DecidableEq

/-- Python `int(v)` on a dataset value; `none` models `ValueError`. -/
def pyToInt : DSVal → Option Int
  | .int n => some n
  | .str s => pyStrToInt s

/-- A claim record (`ClaimRecord` alias in the source): `claim_id` is already
the `str(...)`-coerced identifier, missing keys are the source defaults. -/
structure ClaimRecord where
  claim_id : String
  claim : String := ""
  cited_eftas : List String := []
  primary_datasets : List Int := []
  source_verified : Bool := false
deriving Repr, DecidableEq

/-- A relationship record (`RelationshipRecord` alias): the five
`_EFTA_FIELD_CANDIDATES` slots (`none` = key absent or not a string), the
parsed `date` (`none` = absent or unparseable by `_parse_date_field`), the
optional `dataset` / `primary_dataset` values and the passthrough metadata
copied into doc refs. -/
structure RelRecord where
  efta_number : Option String := none
  efta_source : Option String := none
  source_efta : Option String := none
  efta : Option String := none
  document_id : Option String := none
  date : Option Int := none
  dataset : Option DSVal := none
  primary_dataset : Option DSVal := none
  relationship_type : Option String := none
  source_entity : Option String := none
  target_entity : Option String := none
deriving Repr, DecidableEq

/-- The `_EFTA_FIELD_CANDIDATES` values of a record, in priority order. -/
def eftaCandidates (r : RelRecord) : List (Option String) :=
  [r.efta_number, r.efta_source, r.source_efta, r.efta, r.document_id]

/-- `s.lower().endswith(suffix)` against every excluded suffix. -/
def hasExcludedSuffix (s : String) : Bool :=
  excludedSuffixes.any (fun suf => strEndsWith (strLower s) suf)

/-! ## Corpus filters -/

/-- `WorkUnitGenerator._filter_claims` (total: no `int()` conversion). -/
def filterClaims (claims : List ClaimRecord) : List ClaimRecord :=
  claims.filter (fun c =>
    !(c.primary_datasets.contains ds10Dataset) &&
    !(c.cited_eftas.any hasExcludedSuffix))

/-- `rel.get("dataset", rel.get("primary_dataset"))`. -/
def relDatasetRaw (r : RelRecord) : Option DSVal :=
  match r.dataset with
  | some v => some v
  | none => r.primary_dataset

/-- The suffix screen of `_filter_relationships`: any string-valued candidate
field ending in an excluded suffix. -/
def relSuffixExcluded (r : RelRecord) : Bool :=
  (eftaCandidates r).any (fun c =>
    match c with
    | some s => hasExcludedSuffix s
    | none => false)

/-- Per-record decision of `_filter_relationships`: `.error` models the
`ValueError` of `int(dataset_val)`, `.ok false` means the record is dropped,
`.ok true` means it is kept. -/
def relKeep (r : RelRecord) : Except Unit Bool :=
  match relDatasetRaw r with
  | some v =>
      match pyToInt v with
      | none => .error ()
      | some n =>
          if n = ds10Dataset then .ok false
          else .ok (!relSuffixExcluded r)
  | none => .ok (!relSuffixExcluded r)

/-- `WorkUnitGenerator._filter_relationships`. -/
def filterRelationships : List RelRecord → Except Unit (List RelRecord)
  | [] => .ok []
  | r :: rest =>
      match relKeep r with
      | .error _ => .error ()
      | .ok true => (filterRelationships rest).map (r :: ·)
      | .ok false => filterRelationships rest

/-! ## EFTA extraction and doc-ref construction -/

/-- `candidate.startswith("EFTA") and len(candidate) == 12`. -/
def eftaFormatOk (s : String) : Bool :=
  strStartsWith s "EFTA" && s.data.length = 12

/-- `candidate[4:].isdigit()`. -/
def eftaDigitsOk (s : String) : Bool :=
  (s.data.drop 4).all Char.isDigit

/-- The candidate-field loop of `_relationship_to_doc_ref`: first string
value passing the format *and* digit checks (a candidate failing only the
digit check does not stop the scan of later fields). -/
def extractEfta (r : RelRecord) : Option String :=
  ((eftaCandidates r).filterMap id).find? (fun c => eftaFormatOk c && eftaDigitsOk c)

/-- `int(rel.get("dataset", rel.get("primary_dataset", 9)))`; `none` models
the `ValueError`. -/
def relDataset9 (r : RelRecord) : Option Int :=
  match r.dataset with
  | some v => pyToInt v
  | none =>
      match r.primary_dataset with
      | some v => pyToInt v
      | none => some 9

/-- `int(efta_str[4:])`: the extraction loop guarantees an all-digit suffix,
so the conversion cannot fail here. -/
def eftaSuffixNat (efta : String) : Nat :=
  (digitsToNat? (efta.data.drop 4)).getD 0

/-- `WorkUnitGenerator._relationship_to_doc_ref` with the default
`url_builder` (`sefi.db.efta.build_url`).  `.ok none` = no usable EFTA;
`.error` = the `ValueError` of the dataset conversion. -/
def relationshipToDocRef (r : RelRecord) : Except Unit (Option DocRef) :=
  match extractEfta r with
  | none => .ok none
  | some efta =>
      if hasExcludedSuffix efta then .ok none
      else
        match relDataset9 r with
        | none => .error ()
        | some ds =>
            .ok (some { efta_number := efta,
                        url := buildUrl (eftaSuffixNat efta) ds,
                        date := r.date,
                        relationship_type := r.relationship_type,
                        source_entity := r.source_entity,
                        target_entity := r.target_entity })

/-! ## Time-window selection (`_select_time_window`) -/

/-- Generation errors: `_NoAvailableUnitsError`, the propagated `ValueError`
of the dataset conversion, the raise sites of `_build_verify_unit` /
`_parse_efta_int`, a `WorkUnit.__post_init__` failure, and the unknown-type
branch of `generate_unit`. -/
inductive GenErr where
  | noAvailableUnits
  | valueErr
  | buildNoCited (claim_id : String)
  | buildLenMismatch (claim_id : String)
  | buildBadEfta (efta : String)
  | unitErr (e : WErr)
  | unknownUnitType (t : String)
deriving Repr, DecidableEq

/-- The `dated_refs` accumulation loop: build the doc ref (may raise), skip
records without a usable EFTA or date, skip refs whose key is locked in
`active` (`_active_dc_keys`). -/
def datedRefs (active : List String) : List RelRecord → Except Unit (List (Int × DocRef))
  | [] => .ok []
  | r :: rest =>
      match relationshipToDocRef r with
      | .error _ => .error ()
      | .ok none => datedRefs active rest
      | .ok (some ref) =>
          match r.date with
          | none => datedRefs active rest
          | some d =>
              if ref.efta_number ∈ active then datedRefs active rest
              else (datedRefs active rest).map (fun tl => (d, ref) :: tl)

/-- `min(d for d, _ in dated_refs)` (the argument is never empty at the call
site; `0` is a don't-care default). -/
def minDateOf : List (Int × DocRef) → Int
  | [] => 0
  | [p] => p.1
  | p :: q :: rest => min p.1 (minDateOf (q :: rest))

/-- `bucket_index = (parsed_date - min_date).days // 30`. -/
def bucketIndex (minD d : Int) : Nat := (d - minD).toNat / 30

/-- Members of the bucket with index `i`, in encounter order (the dict of the
source appends refs in iteration order). -/
def bucketMembers (dr : List (Int × DocRef)) (minD : Int) (i : Nat) : List DocRef :=
  (dr.filter (fun p => bucketIndex minD p.1 == i)).map Prod.snd

/-- Largest bucket index occurring in `dr`. -/
def maxIdxOf (dr : List (Int × DocRef)) (minD : Int) : Nat :=
  dr.foldl (fun acc p => max acc (bucketIndex minD p.1)) 0

/-- Scan bucket indices `k, k+1, ...` (`fuel` stops the scan past the last
occupied bucket) for the first with at least `_DC_BATCH_MIN` members.
Iterating indices in ascending order is exactly the source's
`sorted(buckets)` iteration: `bucket_start = min_date + 30·index` is strictly
increasing in the index and an absent bucket has zero members. -/
def firstEligibleIdx (dr : List (Int × DocRef)) (minD : Int) : Nat → Nat → Option Nat
  | _, 0 => none
  | k, fuel + 1 =>
      if dcBatchMin ≤ (bucketMembers dr minD k).length then some k
      else firstEligibleIdx dr minD (k + 1) fuel

/-- `WorkUnitGenerator._select_time_window`. -/
def selectTimeWindow (rels : List RelRecord) (active : List String) :
    Except GenErr (Int × List DocRef) :=
  if rels.isEmpty then .error .noAvailableUnits
  else
    match datedRefs active rels with
    | .error _ => .error .valueErr
    | .ok dr =>
        if dr.isEmpty then .error .noAvailableUnits
        else
          let minD := minDateOf dr
          let maxI := maxIdxOf dr minD
          match firstEligibleIdx dr minD 0 (maxI + 1) with
          | some i => .ok (minD + dcWindowDays * i, (bucketMembers dr minD i).take dcBatchMax)
          | none => .error .noAvailableUnits

/-! ## Unit builders -/

/-- `WorkUnitGenerator._parse_efta_int`. -/
def parseEftaInt (s : String) : Except GenErr Nat :=
  if !(strStartsWith s "EFTA") || s.data.length ≠ 12 then .error (.buildBadEfta s)
  else
    match digitsToNat? (s.data.drop 4) with
    | some n => .ok n
    | none => .error (.buildBadEfta s)

/-- The URL loop of `_build_verify_unit` over `zip(cited_eftas,
primary_datasets)`, with the default `url_builder`. -/
def buildEftaUrls : List (String × Int) → Except GenErr (List String)
  | [] => .ok []
  | (efta, ds) :: rest =>
      match parseEftaInt efta with
      | .error e => .error e
      | .ok n =>
          match buildEftaUrls rest with
          | .error e => .error e
          | .ok urls => .ok (buildUrl n ds :: urls)

/-- `WorkUnitGenerator._build_verify_unit`.  `uid` stands for the fresh
`"verify-{hex12}"` identifier, `deadline` for the `now + 24h` ISO string. -/
def buildVerifyUnit (claim : ClaimRecord) (uid deadline : String) :
    Except GenErr WorkUnit :=
  if claim.cited_eftas.isEmpty then .error (.buildNoCited claim.claim_id)
  else if claim.cited_eftas.length ≠ claim.primary_datasets.length then
    .error (.buildLenMismatch claim.claim_id)
  else
    match buildEftaUrls (claim.cited_eftas.zip claim.primary_datasets) with
    | .error e => .error e
    | .ok urls =>
        match mkWorkUnit
            { unit_id := uid, type := "verify_finding", path := 5, difficulty := "low",
              scaling := "linear", optimal_batch := "1 claim",
              input := .verify { claim := pyStripStr claim.claim,
                                 cited_eftas := claim.cited_eftas,
                                 efta_urls := urls,
                                 source_verified := claim.source_verified },
              instructions := verifyInstructions, constraints := verifyConstraints,
              deadline := deadline, source_verified := claim.source_verified } with
        | .ok u => .ok u
        | .error e => .error (.unitErr e)

/-- `WorkUnitGenerator._build_decision_chain_unit`. -/
def buildDecisionChainUnit (windowStart : Int) (docRefs : List DocRef)
    (uid deadline : String) : Except GenErr WorkUnit :=
  match mkWorkUnit
      { unit_id := uid, type := "decision_chain", path := 3, difficulty := "high",
        scaling := "multiplying", optimal_batch := "20-50 docs (same 30-day period)",
        input := .dc { time_window_start := windowStart,
                       time_window_end := windowStart + dcWindowDays,
                       data := docRefs },
        instructions := dcInstructions, constraints := dcConstraints,
        deadline := deadline, source_verified := false } with
  | .ok u => .ok u
  | .error e => .error (.unitErr e)

/-! ## Generator / ledger state -/

/-- The in-memory state of one `WorkUnitGenerator`.  `assignedEver` is a
ghost history variable recording every unit id that was ever bound to a
worker by a successful `mark_unit_assigned`; it changes no behaviour. -/
structure GenState where
  claims : List ClaimRecord
  relationships : List RelRecord
  assignments : List (String × Option String)
  completed : List String
  unitToClaim : List (String × ClaimRecord)
  claimToUnit : List (String × String)
  unitToDocKeys : List (String × List String)
  activeDcKeys : List String
  assignedEver : List String
deriving Repr, DecidableEq

/-- `WorkUnitGenerator.__init__` after the corpus filters ran. -/
def initGenState (claims : List ClaimRecord) (rels : List RelRecord) : GenState :=
  { claims := claims, relationships := rels, assignments := [], completed := [],
    unitToClaim := [], claimToUnit := [], unitToDocKeys := [], activeDcKeys := [],
    assignedEver := [] }

/-- The `KeyError` / `ValueError` raise sites of `mark_unit_assigned` and
`mark_unit_complete`. -/
inductive LedgerErr where
  | unknownUnit (uid : String)
  | alreadyCompleted (uid : String)
  | alreadyAssigned (uid : String) (worker : String)
deriving Repr, DecidableEq

/-- `WorkUnitGenerator.mark_unit_assigned`. -/
def markUnitAssigned (s : GenState) (uid worker : String) :
    Except LedgerErr GenState :=
  match dlookup s.assignments uid with
  | none => .error (.unknownUnit uid)
  | some currentWorker =>
      if uid ∈ s.completed then .error (.alreadyCompleted uid)
      else
        match currentWorker with
        | some w => .error (.alreadyAssigned uid w)
        | none =>
            .ok { s with assignments := dset s.assignments uid (some worker),
                         assignedEver := setInsert s.assignedEver uid }

/-- `WorkUnitGenerator.mark_unit_complete`.  The source updates the state in
three steps (completion flags, claim release, doc-key release); the two later
steps only read maps the earlier steps never write, so the update is stated
as one record update. -/
def markUnitComplete (s : GenState) (uid : String) : Except LedgerErr GenState :=
  match dlookup s.assignments uid with
  | none => .error (.unknownUnit uid)
  | some _ =>
      let newClaimToUnit :=
        match dlookup s.unitToClaim uid with
        | none => s.claimToUnit
        | some claimRecord =>
            if dlookup s.claimToUnit claimRecord.claim_id = some uid then
              derase s.claimToUnit claimRecord.claim_id
            else s.claimToUnit
      let docKeys := (dlookup s.unitToDocKeys uid).getD []
      .ok { s with completed := setInsert s.completed uid,
                   assignments := dset s.assignments uid none,
                   claimToUnit := newClaimToUnit,
                   unitToDocKeys := derase s.unitToDocKeys uid,
                   activeDcKeys := setDiff s.activeDcKeys docKeys }

/-- The dict returned by `WorkUnitGenerator.get_status`. -/
structure StatusCounts where
  total_claims : Nat
  total_relationships : Nat
  total_generated : Nat
  total_assigned : Nat
  total_completed : Nat
deriving Repr, DecidableEq

/-- `WorkUnitGenerator.get_status`. -/
def getStatus (s : GenState) : StatusCounts :=
  { total_claims := s.claims.length,
    total_relationships := s.relationships.length,
    total_generated := s.assignments.length,
    total_assigned :=
      (s.assignments.filter
        (fun p => p.2.isSome && !(s.completed.contains p.1))).length,
    total_completed := s.completed.length }

/-! ## Unit generation -/

/-- The skip test of `_generate_verify_finding`: the claim already has a
live (non-completed) unit. -/
def claimSkipped (s : GenState) (claimId : String) : Bool :=
  match dlookup s.claimToUnit claimId with
  | some existingUnit => !(s.completed.contains existingUnit)
  | none => false

/-- The claim loop of `_generate_verify_finding`: a build failure on the
first non-skipped claim propagates (later claims are not tried), and the
three registration writes happen only after a successful build. -/
def generateVerifyGo (s : GenState) (uid deadline : String) :
    List ClaimRecord → Except GenErr (WorkUnit × GenState)
  | [] => .error .noAvailableUnits
  | c :: rest =>
      if claimSkipped s c.claim_id then generateVerifyGo s uid deadline rest
      else
        match buildVerifyUnit c uid deadline with
        | .error e => .error e
        | .ok unit =>
            .ok (unit,
              { s with assignments := dset s.assignments unit.unit_id none,
                       unitToClaim := dset s.unitToClaim unit.unit_id c,
                       claimToUnit := dset s.claimToUnit c.claim_id unit.unit_id })

/-- `WorkUnitGenerator._generate_verify_finding`. -/
def generateVerifyFinding (s : GenState) (uid deadline : String) :
    Except GenErr (WorkUnit × GenState) :=
  generateVerifyGo s uid deadline s.claims

/-- `WorkUnitGenerator._generate_decision_chain`. -/
def generateDecisionChain (s : GenState) (uid deadline : String) :
    Except GenErr (WorkUnit × GenState) :=
  match selectTimeWindow s.relationships s.activeDcKeys with
  | .error e => .error e
  | .ok (windowStart, docRefs) =>
      match buildDecisionChainUnit windowStart docRefs uid deadline with
      | .error e => .error e
      | .ok unit =>
          let consumedKeys := docRefs.map (fun ref => ref.efta_number)
          .ok (unit,
            { s with assignments := dset s.assignments unit.unit_id none,
                     unitToDocKeys := dset s.unitToDocKeys unit.unit_id consumedKeys,
                     activeDcKeys := setUnion s.activeDcKeys consumedKeys })

/-- `WorkUnitGenerator.generate_unit` (the `match unit_type` dispatch). -/
def generateUnit (s : GenState) (unitType uid deadline : String) :
    Except GenErr (WorkUnit × GenState) :=
  if unitType = "verify_finding" then generateVerifyFinding s uid deadline
  else if unitType = "decision_chain" then generateDecisionChain s uid deadline
  else .error (.unknownUnitType unitType)

/-! ## Reachable generator states

One constructor per state-changing entry point.  Generation takes the fresh
uuid-based identifier as a parameter together with the freshness fact the
source obtains from `uuid.uuid4()`. -/

inductive Reachable : GenState → Prop where
  | init (rawClaims : List ClaimRecord) (rawRels rels : List RelRecord)
      (hrels : filterRelationships rawRels = .ok rels) :
      Reachable (initGenState (filterClaims rawClaims) rels)
  | genVerify (s : GenState) (uid deadline : String) (u : WorkUnit) (s' : GenState)
      (hs : Reachable s) (hfresh : dlookup s.assignments uid = none)
      (hgen : generateVerifyFinding s uid deadline = .ok (u, s')) : Reachable s'
  | genDC (s : GenState) (uid deadline : String) (u : WorkUnit) (s' : GenState)
      (hs : Reachable s) (hfresh : dlookup s.assignments uid = none)
      (hgen : generateDecisionChain s uid deadline = .ok (u, s')) : Reachable s'
  | assign (s : GenState) (uid worker : String) (s' : GenState)
      (hs : Reachable s) (hop : markUnitAssigned s uid worker = .ok s') : Reachable s'
  | complete (s : GenState) (uid : String) (s' : GenState)
      (hs : Reachable s) (hop : markUnitComplete s uid = .ok s') : Reachable s'

/-! ## JSON serialisation (`json.dumps(..., default separators)`) -/

/-- A JSON value (the payloads carried by a `ResultSubmission`). -/
inductive Json where
  | null
  | bool (b : Bool)
  | num (n : Int)
  | str (s : String)
  | arr (xs : List Json)
  | obj (kvs : List (String × Json))
deriving Repr

/-- Lowercase hex digit, as produced by the `\u00XX` escapes of `json`. -/
def hexDigit (n : Nat) : Char :=
  if n < 10 then Char.ofNat (48 + n) else Char.ofNat (87 + n)

/-- Per-character JSON string escaping (`ensure_ascii=False`: non-ASCII
characters pass through unescaped). -/
def escChar (c : Char) : List Char :=
  if c = '"' then ['\\', '"']
  else if c = '\\' then ['\\', '\\']
  else if c = '\n' then ['\\', 'n']
  else if c = '\t' then ['\\', 't']
  else if c = '\r' then ['\\', 'r']
  else if c = Char.ofNat 8 then ['\\', 'b']
  else if c = Char.ofNat 12 then ['\\', 'f']
  else if c.toNat < 32 then
    ['\\', 'u', '0', '0', hexDigit (c.toNat / 16), hexDigit (c.toNat % 16)]
  else [c]

/-- A JSON string literal with its surrounding quotes. -/
def jsonQuote (s : String) : String :=
  "\"" ++ String.mk (s.data.foldr (fun c acc => escChar c ++ acc) []) ++ "\""

mutual

/-- `json.dumps` with the default separators `", "` and `": "`. -/
def jsonDump : Json → String
  | .null => "null"
  | .bool true => "true"
  | .bool false => "false"
  | .num n => toString n
  | .str s => jsonQuote s
  | .arr xs => "[" ++ jsonDumpArr xs ++ "]"
  | .obj kvs => "\x7b" ++ jsonDumpObj kvs ++ "\x7d"

/-- Comma-joined array elements. -/
def jsonDumpArr : List Json → String
  | [] => ""
  | [x] => jsonDump x
  | x :: y :: rest => jsonDump x ++ ", " ++ jsonDumpArr (y :: rest)

/-- Comma-joined `"key": value` members, in insertion order. -/
def jsonDumpObj : List (String × Json) → String
  | [] => ""
  | [(k, v)] => jsonQuote k ++ ": " ++ jsonDump v
  | (k, v) :: p :: rest => jsonQuote k ++ ": " ++ jsonDump v ++ ", " ++ jsonDumpObj (p :: rest)

end

/-! ## The PII regular expressions (`_PII_PATTERNS`)

A small backtracking matcher reproducing Python `re` semantics for the three
fixed patterns: greedy `?`/`+`/`{m,n}` with backtracking, ordered
alternation, word boundaries, `finditer` yielding non-overlapping matches
left to right.  Character classes follow the ASCII readings of `\d`, `\s`
and `\w` (the scanned texts are JSON-serialised submissions). -/

/-- `\w` (ASCII reading). -/
def isWordChar (c : Char) : Bool := c.isAlphanum || c = '_'

/-- Regular-expression syntax needed by the three patterns. -/
inductive RE where
  | eps
  | cls (p : Char → Bool)
  | seq (a b : RE)
  | alt (a b : RE)
  | opt (a : RE)
  | starCls (p : Char → Bool)
  | upTo (p : Char → Bool) (n : Nat)
  | bound

/-- Word-ness of the character at `i` (`false` past either end). -/
def isWordAt (s : List Char) (i : Nat) : Bool :=
  match s[i]? with
  | some c => isWordChar c
  | none => false

/-- `\b` at position `i`. -/
def atWordBoundary (s : List Char) (i : Nat) : Bool :=
  (decide (i ≠ 0) && isWordAt s (i - 1)) != isWordAt s i

/-- Greedy `starCls`: consume as many `p`-characters as possible, backtracking
into the continuation `k` from the longest prefix downwards.  Structural on a
fuel argument (called with more fuel than characters remain). -/
def manyCls (s : List Char) (p : Char → Bool) (k : Nat → Option Nat) :
    Nat → Nat → Option Nat
  | 0, i => k i
  | fuel + 1, i =>
      match s[i]? with
      | some c =>
          if p c then
            match manyCls s p k fuel (i + 1) with
            | some r => some r
            | none => k i
          else k i
      | none => k i

/-- Greedy bounded repetition (`{0,n}` of a class), longest first. -/
def upToCls (s : List Char) (p : Char → Bool) (k : Nat → Option Nat) :
    Nat → Nat → Option Nat
  | 0, i => k i
  | n + 1, i =>
      match s[i]? with
      | some c =>
          if p c then
            match upToCls s p k n (i + 1) with
            | some r => some r
            | none => k i
          else k i
      | none => k i

/-- Backtracking matcher in continuation-passing style: `matchRE s re i k`
tries to match `re` at position `i` of `s` and passes each candidate end
position to `k`, in Python's preference order (greedy, leftmost
alternative). -/
def matchRE (s : List Char) : RE → Nat → (Nat → Option Nat) → Option Nat
  | .eps, i, k => k i
  | .cls p, i, k =>
      match s[i]? with
      | some c => if p c then k (i + 1) else none
      | none => none
  | .seq a b, i, k => matchRE s a i (fun j => matchRE s b j k)
  | .alt a b, i, k =>
      match matchRE s a i k with
      | some r => some r
      | none => matchRE s b i k
  | .opt a, i, k =>
      match matchRE s a i k with
      | some r => some r
      | none => k i
  | .starCls p, i, k => manyCls s p k (s.length + 1) i
  | .upTo p n, i, k => upToCls s p k n i
  | .bound, i, k => if atWordBoundary s i then k i else none

/-- End position of the preferred match of `re` anchored at `i`, if any. -/
def reMatchEnd (re : RE) (s : List Char) (i : Nat) : Option Nat :=
  matchRE s re i some

/-- `pattern.finditer(text)`:  scan left to right, yield non-overlapping
`(start, end)` spans, resuming after each match (or one past a zero-width
match).  The fuel starts at `s.length + 1`, an upper bound on the number of
distinct scan positions. -/
def finditerGo (re : RE) (s : List Char) : Nat → Nat → List (Nat × Nat)
  | 0, _ => []
  | fuel + 1, i =>
      if i ≤ s.length then
        match reMatchEnd re s i with
        | some j => (i, j) :: finditerGo re s fuel (if i < j then j else i + 1)
        | none => finditerGo re s fuel (i + 1)
      else []

/-- All matches of `re` in `s`, as `(start, end)` spans. -/
def finditer (re : RE) (s : List Char) : List (Nat × Nat) :=
  finditerGo re s (s.length + 1) 0

/-- Sequence of regular expressions. -/
def reSeq (l : List RE) : RE := l.foldr RE.seq .eps

/-- A single literal character. -/
def reChar (c : Char) : RE := .cls (fun x => x == c)

/-- A literal string. -/
def reString (str : String) : RE := reSeq (str.data.map reChar)

/-- Ordered alternation (first alternative preferred, as in `re`). -/
def reAlts : List RE → RE
  | [] => .eps
  | [r] => r
  | r :: rest => .alt r (reAlts rest)

/-- `\d{n}`. -/
def reDigits (n : Nat) : RE := reSeq (List.replicate n (RE.cls Char.isDigit))

/-- The SSN pattern `\b\d{3}-\d{2}-\d{4}\b`. -/
def ssnRE : RE :=
  reSeq [.bound, reDigits 3, reChar '-', reDigits 2, reChar '-', reDigits 4, .bound]

/-- The separator class `[-.\s]`. -/
def sepCls (c : Char) : Bool := c == '-' || c == '.' || isSpaceChar c

/-- The US phone pattern `\b(\+1[-.\s]?)?\(?\d{3}\)?[-.\s]?\d{3}[-.\s]?\d{4}\b`. -/
def phoneRE : RE :=
  reSeq [.bound,
         .opt (reSeq [reChar '+', reChar '1', .opt (.cls sepCls)]),
         .opt (reChar '('),
         reDigits 3,
         .opt (reChar ')'),
         .opt (.cls sepCls),
         reDigits 3,
         .opt (.cls sepCls),
         reDigits 4,
         .bound]

/-- The body class `[A-Za-z0-9\s,.]`. -/
def addrCls (c : Char) : Bool := c.isAlphanum || isSpaceChar c || c == ',' || c == '.'

/-- The street-type alternation, in source order. -/
def streetTypes : List String :=
  ["Street", "St", "Avenue", "Ave", "Boulevard", "Blvd", "Road", "Rd",
   "Drive", "Dr", "Lane", "Ln", "Way", "Court", "Ct"]

/-- The postal-address pattern
`\b\d{1,5}\s+[A-Za-z0-9\s,.]+(?:Street|St|...|Ct)\b`. -/
def postalRE : RE :=
  reSeq [.bound,
         .cls Char.isDigit, .upTo Char.isDigit 4,
         .cls isSpaceChar, .starCls isSpaceChar,
         .cls addrCls, .starCls addrCls,
         reAlts (streetTypes.map reString),
         .bound]

/-- `_PII_PATTERNS`, in source order. -/
def piiPatterns : List (String × RE) :=
  [("ssn", ssnRE), ("phone", phoneRE), ("postal_address", postalRE)]

/-- The `PIIMatch` model. -/
structure PIIMatch where
  pattern_name : String
  matched_text : String
deriving Repr, DecidableEq

/-- The substring `s[i:j]`. -/
def sliceStr (s : List Char) (i j : Nat) : String :=
  String.mk ((s.drop i).take (j - i))

/-- `ValidationLayer.scan_for_pii`: all matches of every pattern, grouped by
pattern in source order. -/
def scanForPII (text : String) : List PIIMatch :=
  (piiPatterns.map (fun pr =>
    (finditer pr.2 text.data).map (fun m =>
      { pattern_name := pr.1, matched_text := sliceStr text.data m.1 m.2 }))).flatten

/-! ## Submissions, provenance, findings store -/

/-- The `ResultSubmission` Pydantic model; `result` is the arbitrary payload
dict. -/
structure ResultSubmission where
  unit_id : String
  worker_id : String
  result : List (String × Json)
  cited_eftas : List String := []
  unit_type : String := "unknown"

/-- `_serialise_result`: `json.dumps(result.model_dump(),
ensure_ascii=False, default=str)` — the whole submission, fields in
declaration order. -/
def serialiseResult (sub : ResultSubmission) : String :=
  jsonDump (.obj [("unit_id", .str sub.unit_id),
                  ("worker_id", .str sub.worker_id),
                  ("result", .obj sub.result),
                  ("cited_eftas", .arr (sub.cited_eftas.map Json.str)),
                  ("unit_type", .str sub.unit_type)])

/-- The ingested working tables consulted by `_efta_is_known`: the
`(range_start, range_end)` rows of `efta_mapping` (non-null pairs only) and
the `entity_id` column of `entities`. -/
structure DBState where
  eftaRanges : List (Int × Int)
  entities : List String
deriving Repr, DecidableEq

/-- `_efta_to_int`: accepts any string whose uppercasing starts with
`"EFTA"`, then `int(...)` on the raw 4-character-dropped suffix. -/
def eftaToInt (efta : String) : Option Int :=
  if strStartsWith (strUpper efta) "EFTA" then
    pyStrToInt (String.mk (efta.data.drop 4))
  else none

/-- `ValidationLayer._efta_is_known`: numeric suffix inside any stored range
(SQL `BETWEEN`, inclusive), or exact `entity_id` match. -/
def eftaIsKnown (db : DBState) (efta : String) : Bool :=
  (match eftaToInt efta with
   | some n => db.eftaRanges.any (fun r => decide (r.1 ≤ n) && decide (n ≤ r.2))
   | none => false) || db.entities.contains efta

/-- The error messages produced by the validation pipeline, one constructor
per message template. -/
inductive VErr where
  | piiDetected (pattern_name matched_text : String)
  | provenanceUnknown (efta : String)
  | duplicate (unit_id finding_id : String)
deriving Repr, DecidableEq

/-- `ValidationLayer.verify_provenance`: one error per unverifiable EFTA (an
empty citation list yields no errors). -/
def verifyProvenance (db : DBState) (citedEftas : List String) : List VErr :=
  citedEftas.filterMap (fun e =>
    if eftaIsKnown db e then none else some (.provenanceUnknown e))

/-- A stored finding row.  `submitted_at` / `validated_at` (wall-clock ISO
strings) and the empty `citations` list are omitted: no verified property
reads them. -/
structure Finding where
  finding_id : String
  unit_id : String
  unit_type : String
  worker_id : String
  status : String
  result_json : String
  quorum_count : Int
deriving Repr, DecidableEq

/-- The `findings` table, in insertion (rowid) order. -/
abbrev FindingsStore := List Finding

/-- `FindingsStore.store_finding`: idempotent on `finding_id` — an existing
row is left unchanged. -/
def storeFinding (store : FindingsStore) (f : Finding) : FindingsStore :=
  if store.any (fun g => g.finding_id == f.finding_id) then store else store ++ [f]

/-- `ValidationLayer._get_accepted_finding_id`: first accepted row for the
unit, in table order (`LIMIT 1`). -/
def getAcceptedFindingId (store : FindingsStore) (uid : String) : Option String :=
  (store.find? (fun f => f.unit_id == uid && f.status == "accepted")).map
    (fun f => f.finding_id)

/-- `ValidationLayer.check_deduplication`. -/
def checkDeduplication (store : FindingsStore) (uid : String) :
    Option VErr × Option String :=
  match getAcceptedFindingId store uid with
  | some fid => (some (.duplicate uid fid), some fid)
  | none => (none, none)

/-- The `ValidationResult` Pydantic model. -/
structure ValidationResult where
  accepted : Bool
  quorum_status : String := "achieved"
  pii_detected : Bool := false
  errors : List VErr := []
  finding_id : Option String := none
deriving Repr, DecidableEq

/-- `ValidationLayer._store_finding`: the row built from a submission
(`finding_id` is the fresh uuid-based identifier passed in by the caller;
`result_json` is `json.dumps(result.result)`). -/
def mkStoredFinding (sub : ResultSubmission) (fid status : String) : Finding :=
  { finding_id := fid, unit_id := sub.unit_id, unit_type := sub.unit_type,
    worker_id := sub.worker_id, status := status,
    result_json := jsonDump (.obj sub.result), quorum_count := 1 }

/-- The pydantic validators run by the `Finding(...)` construction inside
`ValidationLayer._store_finding`: `_non_empty_string` rejects an empty or
whitespace-only `finding_id`, `unit_id`, `unit_type` or `worker_id`, and
`_validate_status` rejects a status outside the four allowed values.  The
`submitted_at` argument, also validated, is the wall-clock ISO timestamp and
is never blank, so it is omitted with the field.  The raised
`ValidationError` carries no data any verified property reads. -/
def mkFinding (sub : ResultSubmission) (fid status : String) :
    Except Unit Finding :=
  if strBlank fid then .error ()
  else if strBlank sub.unit_id then .error ()
  else if strBlank sub.unit_type then .error ()
  else if strBlank sub.worker_id then .error ()
  else if !(status = "pending" || status = "accepted" || status = "disputed" ||
      status = "quarantined") then .error ()
  else .ok (mkStoredFinding sub fid status)

/-- `ValidationLayer.validate_result`: PII scan, then provenance, then
deduplication, then accept — each stage short-circuiting exactly as in the
source.  The two storing branches construct a pydantic `Finding` first, so
a submission with a blank `unit_id`, `worker_id` or `unit_type` makes them
raise (`.error`) with nothing persisted.  On normal returns, yields the
`ValidationResult` and the findings table afterwards. -/
def validateResult (db : DBState) (store : FindingsStore) (sub : ResultSubmission)
    (freshFid : String) : Except Unit (ValidationResult × FindingsStore) :=
  let resultText := serialiseResult sub
  let piiMatches := scanForPII resultText
  if !piiMatches.isEmpty then
    match mkFinding sub freshFid "quarantined" with
    | .error e => .error e
    | .ok f =>
        .ok ({ accepted := false, quorum_status := "achieved", pii_detected := true,
               errors := piiMatches.map
                 (fun m => .piiDetected m.pattern_name m.matched_text),
               finding_id := some freshFid }, storeFinding store f)
  else
    let provenanceErrors := verifyProvenance db sub.cited_eftas
    if !provenanceErrors.isEmpty then
      .ok ({ accepted := false, quorum_status := "achieved", pii_detected := false,
             errors := provenanceErrors, finding_id := none }, store)
    else
      match checkDeduplication store sub.unit_id with
      | (some dedupError, existingId) =>
          .ok ({ accepted := false, quorum_status := "achieved", pii_detected := false,
                 errors := [dedupError], finding_id := existingId }, store)
      | (none, _) =>
          match mkFinding sub freshFid "accepted" with
          | .error e => .error e
          | .ok f =>
              .ok ({ accepted := true, quorum_status := "achieved",
                     pii_detected := false, errors := [],
                     finding_id := some freshFid }, storeFinding store f)

/-! ## Ledger invariant -/

/-- Ledger invariants maintained by every reachable generator state (named
`LedgerInv` to avoid clashing with the `Inv` class of the mathematical
library).  `assignedEver` facts concern the ghost history variable only. -/
structure LedgerInv (s : GenState) : Prop where
  keysNodup : (dkeys s.assignments).Nodup
  completedNodup : s.completed.Nodup
  completedSub : ∀ u ∈ s.completed, dlookup s.assignments u ≠ none
  aeNodup : s.assignedEver.Nodup
  aeSub : ∀ u ∈ s.assignedEver, dlookup s.assignments u ≠ none
  boundEver : ∀ u w, dlookup s.assignments u = some (some w) → u ∈ s.assignedEver
  utcDom : ∀ u cr, dlookup s.unitToClaim u = some cr → dlookup s.assignments u ≠ none
  ctuUtc : ∀ c u, dlookup s.claimToUnit c = some u →
    ∃ cr, dlookup s.unitToClaim u = some cr ∧ cr.claim_id = c
  liveCtu : ∀ u cr, dlookup s.unitToClaim u = some cr → u ∉ s.completed →
    dlookup s.claimToUnit cr.claim_id = some u
  utdkDom : ∀ u ks, dlookup s.unitToDocKeys u = some ks → dlookup s.assignments u ≠ none
  utdkLive : ∀ u ks, dlookup s.unitToDocKeys u = some ks → u ∉ s.completed
  utdkActive : ∀ u ks, dlookup s.unitToDocKeys u = some ks → ∀ k ∈ ks, k ∈ s.activeDcKeys
  utdkDisjoint : ∀ u₁ u₂ ks₁ ks₂, dlookup s.unitToDocKeys u₁ = some ks₁ →
    dlookup s.unitToDocKeys u₂ = some ks₂ → u₁ ≠ u₂ → ∀ k ∈ ks₁, k ∉ ks₂

/-! ## Concrete instances exercised by the claim witnesses -/

/-- A same-day relationship record with a usable EFTA number. -/
def dcRel (i : Nat) : RelRecord :=
  { efta_number := some ("EFTA" ++ pad8 i), date := some 100 }

/-- `n` same-day relationship records. -/
def dcRels (n : Nat) : List RelRecord := (List.range n).map dcRel

/-- The doc ref `_relationship_to_doc_ref` builds from `dcRel i`. -/
def dcRefOf (i : Nat) : DocRef :=
  { efta_number := "EFTA" ++ pad8 i, url := buildUrl i 9, date := some 100 }

/-- The 20 doc refs selected from `dcRels 20`. -/
def dcRefs20 : List DocRef := (List.range 20).map dcRefOf

/-- Size of the `input.data` batch of a successfully generated
decision-chain unit. -/
def dcOkRefCount : Except GenErr (WorkUnit × GenState) → Option Nat
  | .ok (u, _) =>
      match u.input with
      | .dc d => some d.data.length
      | .verify _ => none
  | .error _ => none

/-- Empty working tables. -/
def c1db : DBState := { eftaRanges := [], entities := [] }

/-- A pre-existing accepted finding for unit `u1`. -/
def c1finding : Finding :=
  { finding_id := "f1", unit_id := "u1", unit_type := "verify_finding",
    worker_id := "w0", status := "accepted", result_json := "\x7b\x7d",
    quorum_count := 1 }

/-- A clean resubmission for unit `u1` (no PII, no citations). -/
def c1sub : ResultSubmission :=
  { unit_id := "u1", worker_id := "w2", result := [],
    cited_eftas := [], unit_type := "verify_finding" }

/-- A submission whose payload contains an SSN and cites an unknown EFTA. -/
def c2sub : ResultSubmission :=
  { unit_id := "verify-aabbccdd0011", worker_id := "w1",
    result := [("note", Json.str "ssn 123-45-6789")],
    cited_eftas := ["EFTA99999999"], unit_type := "verify_finding" }

/-- A PII-carrying submission whose `unit_id` is blank: the pydantic
`Finding` construction inside the quarantine branch raises on it. -/
def c2blankSub : ResultSubmission :=
  { unit_id := "", worker_id := "w1",
    result := [("note", Json.str "ssn 123-45-6789")],
    cited_eftas := [], unit_type := "verify_finding" }

/-- A ledger holding one generated, unassigned unit `u1`. -/
def c4state : GenState :=
  { claims := [], relationships := [], assignments := [("u1", none)],
    completed := [], unitToClaim := [], claimToUnit := [], unitToDocKeys := [],
    activeDcKeys := [], assignedEver := [] }

/-- A verify payload whose cited id is 12 characters, `EFTA`-prefixed, with a
non-digit suffix. -/
def c6input : VerifyInput :=
  { claim := "Claim text.", cited_eftas := ["EFTAabcdefgh"],
    efta_urls := ["https://www.justice.gov/epstein/files/DataSet%201/EFTA00000001.pdf"],
    source_verified := false }

/-- A fully assembled verify unit carrying `c6input`. -/
def c6unit : WorkUnit :=
  { unit_id := "verify-aabbccdd0011", type := "verify_finding", path := 5,
    difficulty := "low", scaling := "linear", optimal_batch := "1 claim",
    input := .verify c6input,
    instructions := verifyInstructions, constraints := verifyConstraints,
    deadline := "2026-01-01T00:00:00+00:00", source_verified := false }

/-- A claim record bound to the live unit of `c7state`. -/
def c7claim : ClaimRecord :=
  { claim_id := "cA", claim := "A claim.", cited_eftas := ["EFTA00000001"],
    primary_datasets := [1] }

/-- A ledger with one assigned unit holding a claim slot and locked doc keys. -/
def c7state : GenState :=
  { claims := [c7claim], relationships := [], assignments := [("u1", some "w")],
    completed := [], unitToClaim := [("u1", c7claim)],
    claimToUnit := [("cA", "u1")], unitToDocKeys := [("u1", ["EFTA00000001"])],
    activeDcKeys := ["EFTA00000001"], assignedEver := ["u1"] }

/-- `c7state` after `mark_unit_complete("u1")`. -/
def c7s1 : GenState :=
  { c7state with
    completed := ["u1"], assignments := [("u1", none)],
    claimToUnit := [], unitToDocKeys := [], activeDcKeys := [] }

/-- A well-formed claim record. -/
def c8claim : ClaimRecord :=
  { claim_id := "c1", claim := "Test claim.", cited_eftas := ["EFTA00039186"],
    primary_datasets := [9], source_verified := false }

/-- Freshly constructed generator over one claim and no relationships. -/
def c8s0 : GenState := initGenState (filterClaims [c8claim]) []

/-- The unit generated from `c8claim`. -/
def c8unit : WorkUnit :=
  { unit_id := "verify-aabbccdd0011", type := "verify_finding", path := 5,
    difficulty := "low", scaling := "linear", optimal_batch := "1 claim",
    input := .verify { claim := "Test claim.", cited_eftas := ["EFTA00039186"],
                       efta_urls := [buildUrl 39186 9], source_verified := false },
    instructions := verifyInstructions, constraints := verifyConstraints,
    deadline := "d", source_verified := false }

/-- `c8s0` after generating `c8unit`. -/
def c8s1 : GenState :=
  { c8s0 with
    assignments := [("verify-aabbccdd0011", none)],
    unitToClaim := [("verify-aabbccdd0011", c8claim)],
    claimToUnit := [("c1", "verify-aabbccdd0011")] }

/-- `c8s1` after completing `c8unit` (never assigned). -/
def c8s2 : GenState :=
  { c8s1 with
    completed := ["verify-aabbccdd0011"],
    assignments := [("verify-aabbccdd0011", none)], claimToUnit := [] }

/-- Freshly constructed generator over one claim and 20 same-day records. -/
def c3s0 : GenState := initGenState (filterClaims [c8claim]) (dcRels 20)

/-- `c3s0` after generating a verify unit. -/
def c3s1 : GenState :=
  { c3s0 with
    assignments := [("verify-aabbccdd0011", none)],
    unitToClaim := [("verify-aabbccdd0011", c8claim)],
    claimToUnit := [("c1", "verify-aabbccdd0011")] }

/-- The decision-chain unit generated from `dcRels 20`. -/
def c3unitD : WorkUnit :=
  { unit_id := "dc-aabbccdd0011", type := "decision_chain", path := 3,
    difficulty := "high", scaling := "multiplying",
    optimal_batch := "20-50 docs (same 30-day period)",
    input := .dc { time_window_start := 100, time_window_end := 130,
                   data := dcRefs20 },
    instructions := dcInstructions, constraints := dcConstraints,
    deadline := "d", source_verified := false }

/-- `c3s1` after generating `c3unitD`: one live verify unit and one live
decision-chain unit. -/
def c3s2 : GenState :=
  { c3s1 with
    assignments := [("verify-aabbccdd0011", none), ("dc-aabbccdd0011", none)],
    unitToDocKeys := [("dc-aabbccdd0011", dcRefs20.map (fun r => r.efta_number))],
    activeDcKeys := setUnion [] (dcRefs20.map (fun r => r.efta_number)) }

/-- A claim with no cited EFTA numbers (build must fail on it). -/
def c9badClaim : ClaimRecord :=
  { claim_id := "c-bad", claim := "Bad claim.", cited_eftas := [],
    primary_datasets := [], source_verified := false }

/-- A well-formed claim listed after the malformed one. -/
def c9goodClaim : ClaimRecord :=
  { claim_id := "c-good", claim := "Good claim.", cited_eftas := ["EFTA00039186"],
    primary_datasets := [9], source_verified := false }

/-- Generator state whose first claim is malformed, second well-formed. -/
def c9state : GenState := initGenState [c9badClaim, c9goodClaim] []

/-- Three relationship records: kept, DS10-excluded, suffix-excluded. -/
def c10relA : RelRecord := { efta_number := some "EFTA00000001", dataset := some (.int 9) }

/-- A record on the excluded media dataset (string-valued). -/
def c10relB : RelRecord := { efta_number := some "EFTA00000002", dataset := some (.str "10") }

/-- A record whose identifier carries a media suffix. -/
def c10relC : RelRecord := { efta_number := some "EFTA0000OLD.jpg" }

/-- The corpus for the C10 witness. -/
def c10rels : List RelRecord := [c10relA, c10relB, c10relC]

/-- A record whose dataset value is present but not convertible to an
integer (`int("ten")` raises `ValueError`). -/
def c10relBad : RelRecord :=
  { efta_number := some "EFTA00000004", dataset := some (.str "ten") }

/-! # Theorems

Helper lemmas first, then one theorem per verified claim (witnesses and
counterexamples alongside). -/

/-! ## Dictionary and set lemmas -/

theorem dlookup_dset_self {α : Type} (d : List (String × α)) (k : String) (v : α) :
    dlookup (dset d k v) k = some v := by
  induction d with
  | nil => simp [dset, dlookup]
  | cons hd tl ih =>
      obtain ⟨k', v'⟩ := hd
      by_cases h : k' = k <;> simp [dset, dlookup, h, ih]

theorem dlookup_dset_ne {α : Type} (d : List (String × α)) (k k' : String) (v : α)
    (h : k ≠ k') : dlookup (dset d k v) k' = dlookup d k' := by
  induction d with
  | nil => simp [dset, dlookup, h]
  | cons hd tl ih =>
      obtain ⟨k₀, v₀⟩ := hd
      by_cases h₀ : k₀ = k
      · subst h₀; simp [dset, dlookup, h]
      · simp only [dset, if_neg h₀, dlookup]
        by_cases h₁ : k₀ = k' <;> simp [h₁, ih]

theorem dlookup_derase {α : Type} (d : List (String × α)) (k k' : String) :
    dlookup (derase d k) k' = if k = k' then none else dlookup d k' := by
  induction d with
  | nil => simp [derase, dlookup]
  | cons hd tl ih =>
      obtain ⟨k₀, v₀⟩ := hd
      by_cases h₀ : k₀ = k
      · subst h₀
        by_cases h₁ : k₀ = k'
        · subst h₁; simp [derase, dlookup, ih]
        · simp [derase, dlookup, ih, h₁]
      · by_cases h₁ : k₀ = k'
        · subst h₁
          have hkk : k ≠ k₀ := fun h => h₀ h.symm
          simp [derase, dlookup, h₀, hkk]
        · simp [derase, dlookup, h₀, h₁, ih]

theorem dset_eq_of_lookup {α : Type} (d : List (String × α)) (k : String) (v : α)
    (h : dlookup d k = some v) : dset d k v = d := by
  induction d with
  | nil => simp [dlookup] at h
  | cons hd tl ih =>
      obtain ⟨k₀, v₀⟩ := hd
      by_cases h₀ : k₀ = k
      · subst h₀
        simp [dlookup] at h
        simp [dset, h]
      · simp [dlookup, h₀] at h
        simp [dset, h₀, ih h]

theorem derase_derase {α : Type} (d : List (String × α)) (k : String) :
    derase (derase d k) k = derase d k := by
  induction d with
  | nil => simp [derase]
  | cons hd tl ih =>
      obtain ⟨k₀, v₀⟩ := hd
      by_cases h₀ : k₀ = k <;> simp [derase, h₀, ih]

theorem setInsert_mem (s : List String) (x : String) : x ∈ setInsert s x := by
  by_cases h : x ∈ s <;> simp [setInsert, h]

theorem setInsert_idem_of_mem (s : List String) (x : String) (h : x ∈ s) :
    setInsert s x = s := by simp [setInsert, h]

theorem mem_setInsert {s : List String} {x y : String} :
    y ∈ setInsert s x ↔ y ∈ s ∨ y = x := by
  by_cases h : x ∈ s
  · simp [setInsert, h]
    intro hy; subst hy; exact h
  · simp [setInsert, h, or_comm]

theorem mem_setDiff {s t : List String} {x : String} :
    x ∈ setDiff s t ↔ x ∈ s ∧ x ∉ t := by
  simp [setDiff]

theorem setDiff_nil (s : List String) : setDiff s [] = s := by
  simp [setDiff]

theorem mem_foldl_setInsert {x : String} : ∀ (t s : List String),
    x ∈ t.foldl setInsert s ↔ x ∈ s ∨ x ∈ t
  | [], s => by simp
  | hd :: tl, s => by
      simp only [List.foldl_cons]
      rw [mem_foldl_setInsert tl (setInsert s hd), mem_setInsert]
      simp [List.mem_cons]
      tauto

theorem mem_setUnion {s t : List String} {x : String} :
    x ∈ setUnion s t ↔ x ∈ s ∨ x ∈ t := mem_foldl_setInsert t s


-- basic extra dict/set lemmas
theorem dlookup_dset_ne_none {α : Type} (d : List (String × α)) (k u : String) (v : α)
    (h : dlookup d u ≠ none) : dlookup (dset d k v) u ≠ none := by
  by_cases hk : k = u
  · subst hk; rw [dlookup_dset_self]; simp
  · rw [dlookup_dset_ne _ _ _ _ hk]; exact h

theorem dkeys_dset_mem {α : Type} (d : List (String × α)) (k : String) (v : α)
    (h : dlookup d k ≠ none) : dkeys (dset d k v) = dkeys d := by
  induction d with
  | nil => simp [dlookup] at h
  | cons hd tl ih =>
      obtain ⟨k₀, v₀⟩ := hd
      by_cases h₀ : k₀ = k
      · subst h₀; simp [dset, dkeys]
      · simp only [dlookup, if_neg h₀] at h
        have hih := ih h
        simp only [dkeys] at hih
        simp [dset, dkeys, h₀, hih]

theorem dkeys_dset_new {α : Type} (d : List (String × α)) (k : String) (v : α)
    (h : dlookup d k = none) : dkeys (dset d k v) = dkeys d ++ [k] := by
  induction d with
  | nil => simp [dset, dkeys]
  | cons hd tl ih =>
      obtain ⟨k₀, v₀⟩ := hd
      by_cases h₀ : k₀ = k
      · subst h₀; simp [dlookup] at h
      · simp only [dlookup, if_neg h₀] at h
        have hih := ih h
        simp only [dkeys] at hih
        simp [dset, dkeys, h₀, hih]

theorem mem_dkeys_iff {α : Type} (d : List (String × α)) (u : String) :
    u ∈ dkeys d ↔ dlookup d u ≠ none := by
  induction d with
  | nil => simp [dkeys, dlookup]
  | cons hd tl ih =>
      obtain ⟨k₀, v₀⟩ := hd
      simp only [dkeys, List.map_cons, List.mem_cons, dlookup]
      by_cases h₀ : k₀ = u
      · subst h₀
        simp
      · rw [if_neg h₀]
        simp only [dkeys] at ih
        rw [ih]
        constructor
        · rintro (rfl | h)
          · exact absurd rfl h₀
          · exact h
        · intro h
          exact Or.inr h

theorem keysNodup_dset {α : Type} (d : List (String × α)) (k : String) (v : α)
    (h : (dkeys d).Nodup) : (dkeys (dset d k v)).Nodup := by
  cases hl : dlookup d k with
  | none =>
      rw [dkeys_dset_new d k v hl, List.nodup_append]
      refine ⟨h, List.nodup_singleton k, ?_⟩
      intro a ha hb
      simp at hb
      subst hb
      exact absurd hl ((mem_dkeys_iff d a).mp ha)
  | some w =>
      rw [dkeys_dset_mem d k v (by simp [hl])]
      exact h

theorem setInsert_nodup (s : List String) (x : String) (h : s.Nodup) :
    (setInsert s x).Nodup := by
  by_cases hx : x ∈ s
  · rw [setInsert_idem_of_mem s x hx]; exact h
  · unfold setInsert
    rw [if_neg hx, List.nodup_append]
    refine ⟨h, List.nodup_singleton x, ?_⟩
    intro a ha hb
    simp at hb
    subst hb
    exact hx ha

-- shape of a successful verify generation
theorem buildVerifyUnit_uid (c : ClaimRecord) (uid deadline : String) (u : WorkUnit)
    (h : buildVerifyUnit c uid deadline = .ok u) : u.unit_id = uid := by
  unfold buildVerifyUnit at h
  by_cases h1 : c.cited_eftas.isEmpty
  · simp [h1] at h
  · rw [if_neg h1] at h
    by_cases h2 : c.cited_eftas.length ≠ c.primary_datasets.length
    · simp [if_pos h2] at h
    · rw [if_neg h2] at h
      cases hu : buildEftaUrls (c.cited_eftas.zip c.primary_datasets) with
      | error e => simp [hu] at h
      | ok urls =>
          simp only [hu] at h
          unfold mkWorkUnit at h
          cases hv : validateWorkUnit
              { unit_id := uid, type := "verify_finding", path := 5, difficulty := "low",
                scaling := "linear", optimal_batch := "1 claim",
                input := .verify { claim := pyStripStr c.claim,
                                   cited_eftas := c.cited_eftas,
                                   efta_urls := urls,
                                   source_verified := c.source_verified },
                instructions := verifyInstructions, constraints := verifyConstraints,
                deadline := deadline, source_verified := c.source_verified } with
          | error e => simp [hv] at h
          | ok w =>
              simp only [hv, Except.ok.injEq] at h
              rw [← h]

theorem generateVerifyGo_ok (s : GenState) (uid deadline : String) :
    ∀ (l : List ClaimRecord) (u : WorkUnit) (s' : GenState),
      generateVerifyGo s uid deadline l = .ok (u, s') →
      ∃ c ∈ l, claimSkipped s c.claim_id = false ∧
        buildVerifyUnit c uid deadline = .ok u ∧ u.unit_id = uid ∧
        s' = { s with assignments := dset s.assignments u.unit_id none,
                      unitToClaim := dset s.unitToClaim u.unit_id c,
                      claimToUnit := dset s.claimToUnit c.claim_id u.unit_id }
  | [], u, s', h => by simp [generateVerifyGo] at h
  | c :: rest, u, s', h => by
      simp only [generateVerifyGo] at h
      by_cases hsk : claimSkipped s c.claim_id = true
      · rw [if_pos hsk] at h
        obtain ⟨c', hc', rest'⟩ := generateVerifyGo_ok s uid deadline rest u s' h
        exact ⟨c', List.mem_cons_of_mem _ hc', rest'⟩
      · rw [if_neg hsk] at h
        cases hb : buildVerifyUnit c uid deadline with
        | error e => simp [hb] at h
        | ok u₀ =>
            simp only [hb, Except.ok.injEq, Prod.mk.injEq] at h
            obtain ⟨h1, h2⟩ := h
            subst h1
            subst h2
            exact ⟨c, List.mem_cons_self c rest, by simpa using hsk,
              hb, buildVerifyUnit_uid _ _ _ _ hb, rfl⟩

theorem buildDecisionChainUnit_uid (ws : Int) (refs : List DocRef)
    (uid deadline : String) (u : WorkUnit)
    (h : buildDecisionChainUnit ws refs uid deadline = .ok u) : u.unit_id = uid := by
  unfold buildDecisionChainUnit at h
  cases hv : validateWorkUnit
      { unit_id := uid, type := "decision_chain", path := 3, difficulty := "high",
        scaling := "multiplying", optimal_batch := "20-50 docs (same 30-day period)",
        input := .dc { time_window_start := ws, time_window_end := ws + dcWindowDays,
                       data := refs },
        instructions := dcInstructions, constraints := dcConstraints,
        deadline := deadline, source_verified := false } with
  | error e => simp [mkWorkUnit, hv] at h
  | ok w =>
      simp only [mkWorkUnit, hv, Except.ok.injEq] at h
      rw [← h]

theorem generateDecisionChain_ok (s : GenState) (uid deadline : String)
    (u : WorkUnit) (s' : GenState)
    (h : generateDecisionChain s uid deadline = .ok (u, s')) :
    ∃ start refs,
      selectTimeWindow s.relationships s.activeDcKeys = .ok (start, refs) ∧
      u.unit_id = uid ∧
      s' = { s with
              assignments := dset s.assignments u.unit_id none,
              unitToDocKeys := dset s.unitToDocKeys u.unit_id
                (refs.map (fun ref => ref.efta_number)),
              activeDcKeys := setUnion s.activeDcKeys
                (refs.map (fun ref => ref.efta_number)) } := by
  unfold generateDecisionChain at h
  cases hw : selectTimeWindow s.relationships s.activeDcKeys with
  | error e => simp [hw] at h
  | ok p =>
      obtain ⟨start, refs⟩ := p
      simp only [hw] at h
      cases hb : buildDecisionChainUnit start refs uid deadline with
      | error e => simp [hb] at h
      | ok u₀ =>
          simp only [hb, Except.ok.injEq, Prod.mk.injEq] at h
          obtain ⟨h1, h2⟩ := h
          subst h1
          subst h2
          exact ⟨start, refs, rfl, buildDecisionChainUnit_uid _ _ _ _ _ hb, rfl⟩

theorem relationshipToDocRef_date (r : RelRecord) (ref : DocRef)
    (h : relationshipToDocRef r = .ok (some ref)) : ref.date = r.date := by
  unfold relationshipToDocRef at h
  cases he : extractEfta r with
  | none => simp [he] at h
  | some efta =>
      simp only [he] at h
      by_cases hs : hasExcludedSuffix efta = true
      · simp [if_pos hs] at h
      · simp only [if_neg hs] at h
        cases hd : relDataset9 r with
        | none => simp [hd] at h
        | some ds =>
            simp only [hd, Except.ok.injEq, Option.some.injEq] at h
            rw [← h]

theorem datedRefs_mem (active : List String) :
    ∀ (rels : List RelRecord) (dr : List (Int × DocRef)),
      datedRefs active rels = .ok dr →
      ∀ p ∈ dr, p.2.date = some p.1 ∧ p.2.efta_number ∉ active
  | [], dr, h => by
      intro p hp
      simp only [datedRefs] at h
      injection h with h
      subst h
      cases hp
  | r :: rest, dr, h => by
      intro p hp
      simp only [datedRefs] at h
      cases hrd : relationshipToDocRef r with
      | error e => simp [hrd] at h
      | ok oref =>
          simp only [hrd] at h
          cases oref with
          | none => exact datedRefs_mem active rest dr h p hp
          | some ref =>
              cases hdate : r.date with
              | none =>
                  simp only [hdate] at h
                  exact datedRefs_mem active rest dr h p hp
              | some d =>
                  simp only [hdate] at h
                  by_cases hact : ref.efta_number ∈ active
                  · simp only [if_pos hact] at h
                    exact datedRefs_mem active rest dr h p hp
                  · simp only [if_neg hact] at h
                    cases htl : datedRefs active rest with
                    | error e => simp [htl, Except.map] at h
                    | ok tl =>
                        simp only [htl, Except.map, Except.ok.injEq] at h
                        subst h
                        rcases List.mem_cons.mp hp with rfl | hp₂
                        · refine ⟨?_, hact⟩
                          have hdr := relationshipToDocRef_date r ref hrd
                          rw [hdr, hdate]
                        · exact datedRefs_mem active rest tl htl p hp₂

theorem minDateOf_le : ∀ (l : List (Int × DocRef)), ∀ p ∈ l, minDateOf l ≤ p.1
  | [p], q, hq => by
      rcases List.mem_cons.mp hq with rfl | h
      · simp [minDateOf]
      · cases h
  | p :: q :: rest, x, hx => by
      rcases List.mem_cons.mp hx with rfl | hx₂
      · simp [minDateOf]
      · calc minDateOf (p :: q :: rest) ≤ minDateOf (q :: rest) := min_le_right _ _
          _ ≤ x.1 := minDateOf_le (q :: rest) x hx₂

theorem firstEligibleIdx_spec (dr : List (Int × DocRef)) (minD : Int) :
    ∀ (fuel k i : Nat), firstEligibleIdx dr minD k fuel = some i →
      k ≤ i ∧ dcBatchMin ≤ (bucketMembers dr minD i).length ∧
      ∀ j, k ≤ j → j < i → (bucketMembers dr minD j).length < dcBatchMin
  | 0, k, i, h => by cases h
  | fuel + 1, k, i, h => by
      by_cases hk : dcBatchMin ≤ (bucketMembers dr minD k).length
      · simp only [firstEligibleIdx, if_pos hk] at h
        injection h with h
        subst h
        exact ⟨le_refl _, hk, fun j h1 h2 => absurd (lt_of_le_of_lt h1 h2) (lt_irrefl _)⟩
      · simp only [firstEligibleIdx, if_neg hk] at h
        obtain ⟨h1, h2, h3⟩ := firstEligibleIdx_spec dr minD fuel (k + 1) i h
        refine ⟨le_trans (Nat.le_succ k) h1, h2, ?_⟩
        intro j hj1 hj2
        rcases Nat.eq_or_lt_of_le hj1 with rfl | hlt
        · exact Nat.lt_of_not_le hk
        · exact h3 j hlt hj2

theorem bucketMembers_mem (dr : List (Int × DocRef)) (minD : Int) (i : Nat)
    (ref : DocRef) (h : ref ∈ bucketMembers dr minD i) :
    ∃ d, (d, ref) ∈ dr ∧ bucketIndex minD d = i := by
  unfold bucketMembers at h
  obtain ⟨p, hp, hpe⟩ := List.mem_map.mp h
  have hf := List.mem_filter.mp hp
  refine ⟨p.1, ?_, by simpa using hf.2⟩
  have hpair : p = (p.1, ref) := by
    obtain ⟨a, b⟩ := p
    simp at hpe
    simp [hpe]
  rw [← hpair]
  exact hf.1

theorem bucketIndex_bounds (minD d : Int) (i : Nat)
    (hle : minD ≤ d) (hidx : bucketIndex minD d = i) :
    minD + 30 * (i : Int) ≤ d ∧ d ≤ minD + 30 * (i : Int) + 29 := by
  unfold bucketIndex at hidx
  have hn : ((d - minD).toNat : Int) = d - minD := Int.toNat_of_nonneg (by omega)
  set n := (d - minD).toNat with hdef
  have hdm := Nat.div_add_mod n 30
  have hmod : n % 30 < 30 := Nat.mod_lt _ (by norm_num)
  rw [hidx] at hdm
  have h30 : 30 * i ≤ n ∧ n < 30 * i + 30 := by omega
  constructor
  · have hc : (30 * i : Int) ≤ (n : Int) := by exact_mod_cast h30.1
    omega
  · have hc : (n : Int) < 30 * i + 30 := by exact_mod_cast h30.2
    omega

theorem selectTimeWindow_ok (rels : List RelRecord) (active : List String)
    (start : Int) (refs : List DocRef)
    (h : selectTimeWindow rels active = .ok (start, refs)) :
    ∃ (dr : List (Int × DocRef)) (i : Nat), datedRefs active rels = .ok dr ∧ dr ≠ [] ∧
      (∀ p ∈ dr, p.2.date = some p.1 ∧ p.2.efta_number ∉ active) ∧
      (∀ p ∈ dr, minDateOf dr ≤ p.1) ∧
      start = minDateOf dr + dcWindowDays * (i : Int) ∧
      dcBatchMin ≤ (bucketMembers dr (minDateOf dr) i).length ∧
      (∀ j < i, (bucketMembers dr (minDateOf dr) j).length < dcBatchMin) ∧
      refs = (bucketMembers dr (minDateOf dr) i).take dcBatchMax ∧
      refs.length = min dcBatchMax (bucketMembers dr (minDateOf dr) i).length ∧
      dcBatchMin ≤ refs.length ∧
      ∀ ref ∈ refs, ∃ d, ref.date = some d ∧ start ≤ d ∧ d ≤ start + dcWindowDays := by
  unfold selectTimeWindow at h
  by_cases hemp : rels.isEmpty
  · simp [hemp] at h
  · rw [if_neg hemp] at h
    cases hdr : datedRefs active rels with
    | error e => simp [hdr] at h
    | ok dr =>
        simp only [hdr] at h
        by_cases hdre : dr.isEmpty
        · simp [hdre] at h
        · rw [if_neg hdre] at h
          cases hfe : firstEligibleIdx dr (minDateOf dr) 0 (maxIdxOf dr (minDateOf dr) + 1) with
          | none => simp [hfe] at h
          | some i =>
              simp only [hfe, Except.ok.injEq, Prod.mk.injEq] at h
              obtain ⟨hstart, hrefs⟩ := h
              obtain ⟨-, hsz, hmin⟩ := firstEligibleIdx_spec dr (minDateOf dr) _ 0 i hfe
              subst hstart
              refine ⟨dr, i, rfl, by simpa using hdre, datedRefs_mem active rels dr hdr,
                minDateOf_le dr, rfl, hsz, fun j hj => hmin j (Nat.zero_le j) hj,
                hrefs.symm, ?_, ?_, ?_⟩
              · rw [← hrefs]; exact (List.length_take _ _)
              · rw [← hrefs, List.length_take]
                exact le_min (by decide) hsz
              · intro ref href
                rw [← hrefs] at href
                have hmem : ref ∈ bucketMembers dr (minDateOf dr) i :=
                  List.take_subset _ _ href
                obtain ⟨d, hd, hbi⟩ := bucketMembers_mem dr (minDateOf dr) i ref hmem
                have hdate := (datedRefs_mem active rels dr hdr (d, ref) hd).1
                have hle := minDateOf_le dr (d, ref) hd
                obtain ⟨hb1, hb2⟩ := bucketIndex_bounds (minDateOf dr) d i hle hbi
                refine ⟨d, hdate, ?_, ?_⟩
                · simp only [dcWindowDays] at *; omega
                · simp only [dcWindowDays] at *; omega

theorem selectTimeWindow_refs_unlocked (rels : List RelRecord) (active : List String)
    (start : Int) (refs : List DocRef)
    (h : selectTimeWindow rels active = .ok (start, refs)) :
    ∀ ref ∈ refs, ref.efta_number ∉ active := by
  obtain ⟨dr, i, hdr, -, hments, -, -, -, -, hrefs, -, -, -⟩ :=
    selectTimeWindow_ok rels active start refs h
  intro ref href
  rw [hrefs] at href
  have hmem : ref ∈ bucketMembers dr (minDateOf dr) i := List.take_subset _ _ href
  obtain ⟨d, hd, -⟩ := bucketMembers_mem dr (minDateOf dr) i ref hmem
  exact (hments (d, ref) hd).2

theorem ledgerInv_init (claims : List ClaimRecord) (rels : List RelRecord) :
    LedgerInv (initGenState claims rels) := by
  constructor <;> simp [initGenState, dkeys, dlookup]

theorem ledgerInv_assign (s : GenState) (uid worker : String) (s' : GenState)
    (hinv : LedgerInv s) (h : markUnitAssigned s uid worker = .ok s') :
    LedgerInv s' := by
  unfold markUnitAssigned at h
  cases hl : dlookup s.assignments uid with
  | none => simp [hl] at h
  | some cur =>
      simp only [hl] at h
      by_cases hc : uid ∈ s.completed
      · simp [hc] at h
      · simp only [if_neg hc] at h
        cases cur with
        | some w => simp at h
        | none =>
            injection h with h
            subst h
            refine ⟨keysNodup_dset _ _ _ hinv.keysNodup, hinv.completedNodup, ?_,
              setInsert_nodup _ _ hinv.aeNodup, ?_, ?_, ?_, hinv.ctuUtc, hinv.liveCtu,
              ?_, hinv.utdkLive, hinv.utdkActive, hinv.utdkDisjoint⟩
            · intro u hu
              exact dlookup_dset_ne_none _ _ _ _ (hinv.completedSub u hu)
            · intro u hu
              rcases mem_setInsert.mp hu with h₀ | rfl
              · exact dlookup_dset_ne_none _ _ _ _ (hinv.aeSub u h₀)
              · rw [dlookup_dset_self]; simp
            · intro u w hw
              by_cases hu : uid = u
              · subst hu; exact setInsert_mem _ _
              · rw [dlookup_dset_ne _ _ _ _ hu] at hw
                exact mem_setInsert.mpr (Or.inl (hinv.boundEver u w hw))
            · intro u cr hcr
              exact dlookup_dset_ne_none _ _ _ _ (hinv.utcDom u cr hcr)
            · intro u ks hks
              exact dlookup_dset_ne_none _ _ _ _ (hinv.utdkDom u ks hks)

theorem ledgerInv_complete (s : GenState) (uid : String) (s' : GenState)
    (hinv : LedgerInv s) (h : markUnitComplete s uid = .ok s') : LedgerInv s' := by
  unfold markUnitComplete at h
  cases hl : dlookup s.assignments uid with
  | none => simp [hl] at h
  | some w =>
      simp only [hl] at h
      injection h with h
      subst h
      have hctuSub : ∀ c u,
          dlookup (match dlookup s.unitToClaim uid with
            | none => s.claimToUnit
            | some claimRecord =>
                if dlookup s.claimToUnit claimRecord.claim_id = some uid then
                  derase s.claimToUnit claimRecord.claim_id
                else s.claimToUnit) c = some u →
          dlookup s.claimToUnit c = some u := by
        intro c u hcu
        cases hutc : dlookup s.unitToClaim uid with
        | none => simpa [hutc] using hcu
        | some cr₀ =>
            simp only [hutc] at hcu
            by_cases hcond : dlookup s.claimToUnit cr₀.claim_id = some uid
            · rw [if_pos hcond] at hcu
              rw [dlookup_derase] at hcu
              by_cases hcc : cr₀.claim_id = c
              · rw [if_pos hcc] at hcu; cases hcu
              · rwa [if_neg hcc] at hcu
            · rwa [if_neg hcond] at hcu
      refine ⟨keysNodup_dset _ _ _ hinv.keysNodup,
        setInsert_nodup _ _ hinv.completedNodup, ?_,
        hinv.aeNodup, ?_, ?_, ?_, ?_, ?_, ?_, ?_, ?_, ?_⟩
      · intro u hu
        rcases mem_setInsert.mp hu with h₀ | rfl
        · exact dlookup_dset_ne_none _ _ _ _ (hinv.completedSub u h₀)
        · rw [dlookup_dset_self]; simp
      · intro u hu
        exact dlookup_dset_ne_none _ _ _ _ (hinv.aeSub u hu)
      · intro u w' hw
        replace hw : dlookup (dset s.assignments uid none) u = some (some w') := hw
        by_cases hu : uid = u
        · subst hu
          rw [dlookup_dset_self] at hw
          cases hw
        · rw [dlookup_dset_ne _ _ _ _ hu] at hw
          exact hinv.boundEver u w' hw
      · intro u cr hcr
        exact dlookup_dset_ne_none _ _ _ _ (hinv.utcDom u cr hcr)
      · intro c u hcu
        exact hinv.ctuUtc c u (hctuSub c u hcu)
      · intro u cr hutc hnc
        replace hutc : dlookup s.unitToClaim u = some cr := hutc
        replace hnc : u ∉ setInsert s.completed uid := hnc
        have hne : u ≠ uid := by
          intro hx; subst hx
          exact hnc (setInsert_mem _ _)
        have hnc₀ : u ∉ s.completed := fun hx => hnc (mem_setInsert.mpr (Or.inl hx))
        have hold := hinv.liveCtu u cr hutc hnc₀
        show dlookup (match dlookup s.unitToClaim uid with
          | none => s.claimToUnit
          | some claimRecord =>
              if dlookup s.claimToUnit claimRecord.claim_id = some uid then
                derase s.claimToUnit claimRecord.claim_id
              else s.claimToUnit) cr.claim_id = some u
        cases hutcU : dlookup s.unitToClaim uid with
        | none => simpa [hutcU] using hold
        | some cr₀ =>
            simp only [hutcU]
            by_cases hcond : dlookup s.claimToUnit cr₀.claim_id = some uid
            · rw [if_pos hcond, dlookup_derase]
              by_cases hcc : cr₀.claim_id = cr.claim_id
              · rw [← hcc] at hold
                rw [hold] at hcond
                injection hcond with hcond
                exact absurd hcond hne
              · rw [if_neg hcc]; exact hold
            · rw [if_neg hcond]; exact hold
      · intro u ks hks
        replace hks : dlookup (derase s.unitToDocKeys uid) u = some ks := hks
        rw [dlookup_derase] at hks
        by_cases hu : uid = u
        · rw [if_pos hu] at hks; cases hks
        · rw [if_neg hu] at hks
          exact dlookup_dset_ne_none _ _ _ _ (hinv.utdkDom u ks hks)
      · intro u ks hks
        replace hks : dlookup (derase s.unitToDocKeys uid) u = some ks := hks
        rw [dlookup_derase] at hks
        by_cases hu : uid = u
        · rw [if_pos hu] at hks; cases hks
        · rw [if_neg hu] at hks
          intro hmem
          replace hmem : u ∈ setInsert s.completed uid := hmem
          rcases mem_setInsert.mp hmem with h₀ | rfl
          · exact hinv.utdkLive u ks hks h₀
          · exact hu rfl
      · intro u ks hks k hk
        replace hks : dlookup (derase s.unitToDocKeys uid) u = some ks := hks
        rw [dlookup_derase] at hks
        by_cases hu : uid = u
        · rw [if_pos hu] at hks; cases hks
        · rw [if_neg hu] at hks
          show k ∈ setDiff s.activeDcKeys ((dlookup s.unitToDocKeys uid).getD [])
          rw [mem_setDiff]
          refine ⟨hinv.utdkActive u ks hks k hk, ?_⟩
          cases hud : dlookup s.unitToDocKeys uid with
          | none => simp
          | some ks₀ =>
              simp only [Option.getD_some]
              exact hinv.utdkDisjoint u uid ks ks₀ hks hud (fun hx => hu hx.symm) k hk
      · intro u₁ u₂ ks₁ ks₂ h₁ h₂ hne k hk
        replace h₁ : dlookup (derase s.unitToDocKeys uid) u₁ = some ks₁ := h₁
        replace h₂ : dlookup (derase s.unitToDocKeys uid) u₂ = some ks₂ := h₂
        rw [dlookup_derase] at h₁ h₂
        by_cases hu₁ : uid = u₁
        · rw [if_pos hu₁] at h₁; cases h₁
        · rw [if_neg hu₁] at h₁
          by_cases hu₂ : uid = u₂
          · rw [if_pos hu₂] at h₂; cases h₂
          · rw [if_neg hu₂] at h₂
            exact hinv.utdkDisjoint u₁ u₂ ks₁ ks₂ h₁ h₂ hne k hk

theorem ledgerInv_genVerify (s : GenState) (uid deadline : String) (u : WorkUnit)
    (s' : GenState) (hinv : LedgerInv s)
    (hfresh : dlookup s.assignments uid = none)
    (hgen : generateVerifyFinding s uid deadline = .ok (u, s')) : LedgerInv s' := by
  obtain ⟨c, -, hsk, -, huid, hs'⟩ :=
    generateVerifyGo_ok s uid deadline s.claims u s' hgen
  subst hs'
  subst huid
  refine ⟨keysNodup_dset _ _ _ hinv.keysNodup, hinv.completedNodup, ?_,
    hinv.aeNodup, ?_, ?_, ?_, ?_, ?_, ?_, hinv.utdkLive, hinv.utdkActive,
    hinv.utdkDisjoint⟩
  · intro v hv
    exact dlookup_dset_ne_none _ _ _ _ (hinv.completedSub v hv)
  · intro v hv
    exact dlookup_dset_ne_none _ _ _ _ (hinv.aeSub v hv)
  · intro v w hw
    replace hw : dlookup (dset s.assignments u.unit_id none) v = some (some w) := hw
    by_cases hv : u.unit_id = v
    · subst hv
      rw [dlookup_dset_self] at hw
      cases hw
    · rw [dlookup_dset_ne _ _ _ _ hv] at hw
      exact hinv.boundEver v w hw
  · intro v cr hcr
    replace hcr : dlookup (dset s.unitToClaim u.unit_id c) v = some cr := hcr
    by_cases hv : u.unit_id = v
    · subst hv
      show dlookup (dset s.assignments u.unit_id none) u.unit_id ≠ none
      rw [dlookup_dset_self]; simp
    · rw [dlookup_dset_ne _ _ _ _ hv] at hcr
      exact dlookup_dset_ne_none _ _ _ _ (hinv.utcDom v cr hcr)
  · intro c' v hcv
    replace hcv : dlookup (dset s.claimToUnit c.claim_id u.unit_id) c' = some v := hcv
    by_cases hc' : c.claim_id = c'
    · subst hc'
      rw [dlookup_dset_self] at hcv
      injection hcv with hcv
      subst hcv
      exact ⟨c, by rw [dlookup_dset_self], rfl⟩
    · rw [dlookup_dset_ne _ _ _ _ hc'] at hcv
      obtain ⟨cr, hcr, hcrid⟩ := hinv.ctuUtc c' v hcv
      have hvne : u.unit_id ≠ v := by
        intro hx
        exact hinv.utcDom v cr hcr (hx ▸ hfresh)
      exact ⟨cr, by rw [dlookup_dset_ne _ _ _ _ hvne]; exact hcr, hcrid⟩
  · intro v cr hvc hnc
    replace hvc : dlookup (dset s.unitToClaim u.unit_id c) v = some cr := hvc
    replace hnc : v ∉ s.completed := hnc
    show dlookup (dset s.claimToUnit c.claim_id u.unit_id) cr.claim_id = some v
    by_cases hv : u.unit_id = v
    · subst hv
      rw [dlookup_dset_self] at hvc
      injection hvc with hvc
      subst hvc
      rw [dlookup_dset_self]
    · rw [dlookup_dset_ne _ _ _ _ hv] at hvc
      have hold := hinv.liveCtu v cr hvc hnc
      by_cases hcc : c.claim_id = cr.claim_id
      · exfalso
        rw [← hcc] at hold
        unfold claimSkipped at hsk
        rw [hold] at hsk
        simp at hsk
        exact hnc hsk
      · rw [dlookup_dset_ne _ _ _ _ hcc]
        exact hold
  · intro v ks hks
    exact dlookup_dset_ne_none _ _ _ _ (hinv.utdkDom v ks hks)

theorem ledgerInv_genDC (s : GenState) (uid deadline : String) (u : WorkUnit)
    (s' : GenState) (hinv : LedgerInv s)
    (hfresh : dlookup s.assignments uid = none)
    (hgen : generateDecisionChain s uid deadline = .ok (u, s')) : LedgerInv s' := by
  obtain ⟨start, refs, hsel, huid, hs'⟩ := generateDecisionChain_ok s uid deadline u s' hgen
  subst hs'
  subst huid
  have hkeys : ∀ k ∈ refs.map (fun ref => ref.efta_number), k ∉ s.activeDcKeys := by
    intro k hkm
    obtain ⟨ref, href, rfl⟩ := List.mem_map.mp hkm
    exact selectTimeWindow_refs_unlocked s.relationships s.activeDcKeys start refs
      hsel ref href
  refine ⟨keysNodup_dset _ _ _ hinv.keysNodup, hinv.completedNodup, ?_,
    hinv.aeNodup, ?_, ?_, ?_, hinv.ctuUtc, hinv.liveCtu, ?_, ?_, ?_, ?_⟩
  · intro v hv
    exact dlookup_dset_ne_none _ _ _ _ (hinv.completedSub v hv)
  · intro v hv
    exact dlookup_dset_ne_none _ _ _ _ (hinv.aeSub v hv)
  · intro v w hw
    replace hw : dlookup (dset s.assignments u.unit_id none) v = some (some w) := hw
    by_cases hv : u.unit_id = v
    · subst hv
      rw [dlookup_dset_self] at hw
      cases hw
    · rw [dlookup_dset_ne _ _ _ _ hv] at hw
      exact hinv.boundEver v w hw
  · intro v cr hcr
    exact dlookup_dset_ne_none _ _ _ _ (hinv.utcDom v cr hcr)
  · intro v ks hks
    replace hks : dlookup
      (dset s.unitToDocKeys u.unit_id (refs.map (fun ref => ref.efta_number))) v =
        some ks := hks
    by_cases hv : u.unit_id = v
    · subst hv
      show dlookup (dset s.assignments u.unit_id none) u.unit_id ≠ none
      rw [dlookup_dset_self]; simp
    · rw [dlookup_dset_ne _ _ _ _ hv] at hks
      exact dlookup_dset_ne_none _ _ _ _ (hinv.utdkDom v ks hks)
  · intro v ks hks
    replace hks : dlookup
      (dset s.unitToDocKeys u.unit_id (refs.map (fun ref => ref.efta_number))) v =
        some ks := hks
    by_cases hv : u.unit_id = v
    · subst hv
      intro hcomp
      exact hinv.completedSub u.unit_id hcomp hfresh
    · rw [dlookup_dset_ne _ _ _ _ hv] at hks
      exact hinv.utdkLive v ks hks
  · intro v ks hks k hk
    replace hks : dlookup
      (dset s.unitToDocKeys u.unit_id (refs.map (fun ref => ref.efta_number))) v =
        some ks := hks
    show k ∈ setUnion s.activeDcKeys (refs.map (fun ref => ref.efta_number))
    by_cases hv : u.unit_id = v
    · subst hv
      rw [dlookup_dset_self] at hks
      injection hks with hks
      subst hks
      exact mem_setUnion.mpr (Or.inr hk)
    · rw [dlookup_dset_ne _ _ _ _ hv] at hks
      exact mem_setUnion.mpr (Or.inl (hinv.utdkActive v ks hks k hk))
  · intro u₁ u₂ ks₁ ks₂ h₁ h₂ hne k hk
    replace h₁ : dlookup
      (dset s.unitToDocKeys u.unit_id (refs.map (fun ref => ref.efta_number))) u₁ =
        some ks₁ := h₁
    replace h₂ : dlookup
      (dset s.unitToDocKeys u.unit_id (refs.map (fun ref => ref.efta_number))) u₂ =
        some ks₂ := h₂
    by_cases hv₁ : u.unit_id = u₁
    · subst hv₁
      rw [dlookup_dset_self] at h₁
      injection h₁ with h₁
      subst h₁
      have hne₂ : u.unit_id ≠ u₂ := hne
      rw [dlookup_dset_ne _ _ _ _ hne₂] at h₂
      intro hk₂
      exact hkeys k hk (hinv.utdkActive u₂ ks₂ h₂ k hk₂)
    · rw [dlookup_dset_ne _ _ _ _ hv₁] at h₁
      by_cases hv₂ : u.unit_id = u₂
      · subst hv₂
        rw [dlookup_dset_self] at h₂
        injection h₂ with h₂
        subst h₂
        intro hk₂
        exact hkeys k hk₂ (hinv.utdkActive u₁ ks₁ h₁ k hk)
      · rw [dlookup_dset_ne _ _ _ _ hv₂] at h₂
        exact hinv.utdkDisjoint u₁ u₂ ks₁ ks₂ h₁ h₂ hne k hk

theorem reachable_ledgerInv (s : GenState) (h : Reachable s) : LedgerInv s := by
  induction h with
  | init rawClaims rawRels rels hrels => exact ledgerInv_init _ _
  | genVerify s uid deadline u s' hs hfresh hgen ih =>
      exact ledgerInv_genVerify s uid deadline u s' ih hfresh hgen
  | genDC s uid deadline u s' hs hfresh hgen ih =>
      exact ledgerInv_genDC s uid deadline u s' ih hfresh hgen
  | assign s uid worker s' hs hop ih => exact ledgerInv_assign s uid worker s' ih hop
  | complete s uid s' hs hop ih => exact ledgerInv_complete s uid s' ih hop

theorem dlookup_eq_of_mem_nodup {α : Type} :
    ∀ (d : List (String × α)), (dkeys d).Nodup → ∀ k v, (k, v) ∈ d →
      dlookup d k = some v
  | [], _, k, v, hm => by cases hm
  | (k₀, v₀) :: tl, hnd, k, v, hm => by
      simp only [dkeys, List.map_cons, List.nodup_cons] at hnd
      rcases List.mem_cons.mp hm with heq | hm₂
      · injection heq with h1 h2
        subst h1; subst h2
        simp [dlookup]
      · have hne : k₀ ≠ k := by
          intro hx; subst hx
          exact hnd.1 (List.mem_map.mpr ⟨(k₀, v), hm₂, rfl⟩)
        simp only [dlookup, if_neg hne]
        exact dlookup_eq_of_mem_nodup tl hnd.2 k v hm₂

theorem c8_counts (s : GenState) (hinv : LedgerInv s) :
    (getStatus s).total_completed ≤ (getStatus s).total_generated ∧
    s.assignedEver.length ≤ (getStatus s).total_generated ∧
    (getStatus s).total_assigned ≤ s.assignedEver.length := by
  have hklen : (dkeys s.assignments).length = s.assignments.length :=
    List.length_map _ _
  refine ⟨?_, ?_, ?_⟩
  · have hsub : s.completed ⊆ dkeys s.assignments := fun u hu =>
      (mem_dkeys_iff _ u).mpr (hinv.completedSub u hu)
    have hsp := (hinv.completedNodup.subperm hsub).length_le
    simpa [getStatus, hklen] using hsp
  · have hsub : s.assignedEver ⊆ dkeys s.assignments := fun u hu =>
      (mem_dkeys_iff _ u).mpr (hinv.aeSub u hu)
    have hsp := (hinv.aeNodup.subperm hsub).length_le
    simpa [getStatus, hklen] using hsp
  · have hfs : (s.assignments.filter
        (fun p => p.2.isSome && !(s.completed.contains p.1))).Sublist s.assignments :=
      List.filter_sublist _
    have hmapsub : ((s.assignments.filter
        (fun p => p.2.isSome && !(s.completed.contains p.1))).map Prod.fst).Sublist
        (dkeys s.assignments) := hfs.map Prod.fst
    have hnodup := hinv.keysNodup.sublist hmapsub
    have hsub : ((s.assignments.filter
        (fun p => p.2.isSome && !(s.completed.contains p.1))).map Prod.fst) ⊆
        s.assignedEver := by
      intro u hu
      obtain ⟨p, hp, hpe⟩ := List.mem_map.mp hu
      have hf := List.mem_filter.mp hp
      obtain ⟨hs, hpred⟩ := hf
      simp only [Bool.and_eq_true, Option.isSome_iff_exists] at hpred
      obtain ⟨⟨w, hw⟩, -⟩ := hpred
      have hlk : dlookup s.assignments p.1 = some p.2 := by
        obtain ⟨a, b⟩ := p
        exact dlookup_eq_of_mem_nodup s.assignments hinv.keysNodup a b hs
      rw [hw] at hlk
      rw [← hpe]
      exact hinv.boundEver p.1 w hlk
    have hsp := ((hnodup.subperm hsub)).length_le
    simpa [getStatus] using hsp

/-! ## Relationship-filter lemmas -/

theorem relKeep_error_iff (r : RelRecord) :
    relKeep r = .error () ↔
      ∃ v, relDatasetRaw r = some v ∧ pyToInt v = none := by
  unfold relKeep
  cases hd : relDatasetRaw r with
  | none => simp
  | some v =>
      cases hp : pyToInt v with
      | none => simp [hp]
      | some n =>
          by_cases h10 : n = ds10Dataset <;> simp [hp, h10]

theorem relKeep_false_iff (r : RelRecord) (hne : relKeep r ≠ .error ()) :
    relKeep r = .ok false ↔
      (∃ v, relDatasetRaw r = some v ∧ pyToInt v = some ds10Dataset) ∨
      relSuffixExcluded r = true := by
  unfold relKeep at *
  cases hd : relDatasetRaw r with
  | none =>
      simp only [hd]
      cases hs : relSuffixExcluded r <;> simp [hs]
  | some v =>
      simp only [hd] at hne ⊢
      cases hp : pyToInt v with
      | none => simp [hp] at hne
      | some n =>
          by_cases h10 : n = ds10Dataset
          · simp [hp, h10]
          · cases hs : relSuffixExcluded r <;> simp [hp, h10, hs]

theorem filterRelationships_error_iff (rels : List RelRecord) :
    filterRelationships rels = .error () ↔ ∃ r ∈ rels, relKeep r = .error () := by
  induction rels with
  | nil => simp [filterRelationships]
  | cons hd tl ih =>
      cases hk : relKeep hd with
      | error e => obtain ⟨⟩ := e; simp [filterRelationships, hk]
      | ok b =>
          cases b
          · simp only [filterRelationships, hk, ih]
            constructor
            · intro h; exact ⟨h.choose, by simp [h.choose_spec.1], h.choose_spec.2⟩
            · rintro ⟨r, hr, hke⟩
              rcases List.mem_cons.mp hr with rfl | hr'
              · rw [hk] at hke; cases hke
              · exact ⟨r, hr', hke⟩
          · simp only [filterRelationships, hk]
            constructor
            · intro h
              cases hrec : filterRelationships tl with
              | error e => obtain ⟨r, hr, hke⟩ := ih.mp hrec
                           exact ⟨r, List.mem_cons_of_mem _ hr, hke⟩
              | ok l => rw [hrec] at h; cases h
            · rintro ⟨r, hr, hke⟩
              rcases List.mem_cons.mp hr with rfl | hr'
              · rw [hk] at hke; cases hke
              · rw [ih.mpr ⟨r, hr', hke⟩]; rfl

theorem filterRelationships_ok (rels : List RelRecord)
    (h : ∀ r ∈ rels, relKeep r ≠ .error ()) :
    filterRelationships rels =
      .ok (rels.filter (fun r => relKeep r == .ok true)) := by
  induction rels with
  | nil => simp [filterRelationships]
  | cons hd tl ih =>
      have hh := h hd (List.mem_cons_self hd tl)
      have htl : ∀ r ∈ tl, relKeep r ≠ .error () :=
        fun r hr => h r (List.mem_cons_of_mem _ hr)
      cases hk : relKeep hd with
      | error e => obtain ⟨⟩ := e; exact absurd hk hh
      | ok b =>
          cases b
          · simp [filterRelationships, hk, ih htl, List.filter_cons, Except.map]
          · simp [filterRelationships, hk, ih htl, List.filter_cons, Except.map]

theorem filterRelationships_mem :
    ∀ (raw rels : List RelRecord), filterRelationships raw = .ok rels →
      ∀ r ∈ rels, relKeep r = .ok true
  | [], rels, h => by
      intro r hr
      simp only [filterRelationships] at h
      injection h with h
      subst h
      cases hr
  | hd :: tl, rels, h => by
      intro r hr
      simp only [filterRelationships] at h
      cases hk : relKeep hd with
      | error e => simp [hk] at h
      | ok b =>
          simp only [hk] at h
          cases b
          · exact filterRelationships_mem tl rels h r hr
          · cases htl : filterRelationships tl with
            | error e => simp [htl, Except.map] at h
            | ok l =>
                simp only [htl, Except.map, Except.ok.injEq] at h
                subst h
                rcases List.mem_cons.mp hr with rfl | hr₂
                · exact hk
                · exact filterRelationships_mem tl l htl r hr₂

/-! ## Time-window totality lemmas -/

theorem relationshipToDocRef_ne_error (r : RelRecord) (hk : relKeep r = .ok true) :
    relationshipToDocRef r ≠ .error () := by
  intro h
  unfold relationshipToDocRef at h
  cases he : extractEfta r with
  | none => simp [he] at h
  | some efta =>
      simp only [he] at h
      by_cases hs : hasExcludedSuffix efta = true
      · simp [if_pos hs] at h
      · simp only [if_neg hs] at h
        cases hd : relDataset9 r with
        | some ds => simp [hd] at h
        | none =>
            unfold relDataset9 at hd
            unfold relKeep relDatasetRaw at hk
            cases h1 : r.dataset with
            | some v =>
                simp only [h1] at hd hk
                cases h2 : pyToInt v with
                | none => simp [h2] at hk
                | some n => simp [h2] at hd
            | none =>
                simp only [h1] at hd hk
                cases h2 : r.primary_dataset with
                | none => simp [h2] at hd
                | some v =>
                    simp only [h2] at hd hk
                    cases h3 : pyToInt v with
                    | none => simp [h3] at hk
                    | some n => simp [h3] at hd

theorem datedRefs_ne_error (active : List String) :
    ∀ (rels : List RelRecord), (∀ r ∈ rels, relationshipToDocRef r ≠ .error ()) →
      ∀ e, datedRefs active rels ≠ .error e
  | [], h, e => by simp [datedRefs]
  | r :: rest, h, e => by
      intro hx
      simp only [datedRefs] at hx
      cases hrd : relationshipToDocRef r with
      | error e0 =>
          obtain ⟨⟩ := e0
          exact h r (List.mem_cons_self r rest) hrd
      | ok oref =>
          simp only [hrd] at hx
          have hrest : ∀ r2 ∈ rest, relationshipToDocRef r2 ≠ .error () :=
            fun r2 hr2 => h r2 (List.mem_cons_of_mem _ hr2)
          cases oref with
          | none => exact datedRefs_ne_error active rest hrest e hx
          | some ref =>
              cases hdate : r.date with
              | none =>
                  simp only [hdate] at hx
                  exact datedRefs_ne_error active rest hrest e hx
              | some d =>
                  simp only [hdate] at hx
                  by_cases hact : ref.efta_number ∈ active
                  · simp only [if_pos hact] at hx
                    exact datedRefs_ne_error active rest hrest e hx
                  · simp only [if_neg hact] at hx
                    cases htl : datedRefs active rest with
                    | error e1 =>
                        obtain ⟨⟩ := e1
                        exact datedRefs_ne_error active rest hrest () htl
                    | ok tl => simp [htl, Except.map] at hx

theorem selectTimeWindow_total (rels : List RelRecord) (active : List String)
    (hne : ∀ e, datedRefs active rels ≠ .error e) :
    selectTimeWindow rels active = .error .noAvailableUnits ∨
    ∃ p, selectTimeWindow rels active = .ok p := by
  unfold selectTimeWindow
  by_cases hemp : rels.isEmpty
  · simp [hemp]
  · rw [if_neg hemp]
    cases hdr : datedRefs active rels with
    | error e => exact absurd hdr (hne e)
    | ok dr =>
        dsimp only
        by_cases hdre : dr.isEmpty
        · simp [hdre]
        · rw [if_neg hdre]
          cases hfe : firstEligibleIdx dr (minDateOf dr) 0 (maxIdxOf dr (minDateOf dr) + 1) with
          | none => simp [hfe]
          | some i => right; exact ⟨_, rfl⟩

/-! ## Payload-validation lemmas -/

theorem checkCitedEftas_ok (l : List String) :
    checkCitedEftas l = .ok () ↔
      ∀ e ∈ l, strStartsWith e "EFTA" = true ∧ e.length = 12 := by
  induction l with
  | nil => simp [checkCitedEftas]
  | cons hd tl ih =>
      by_cases h : (strStartsWith hd "EFTA" && decide (hd.data.length = 12)) = true
      · simp only [checkCitedEftas, if_pos h, ih]
        simp only [Bool.and_eq_true, decide_eq_true_eq] at h
        constructor
        · intro hall e he
          rcases List.mem_cons.mp he with rfl | he'
          · exact ⟨h.1, h.2⟩
          · exact hall e he'
        · intro hall e he
          exact hall e (List.mem_cons_of_mem _ he)
      · simp only [checkCitedEftas, if_neg h]
        constructor
        · intro hx; cases hx
        · intro hx
          have hhd := hx hd (List.mem_cons_self hd tl)
          apply absurd _ h
          rw [Bool.and_eq_true, decide_eq_true_eq]
          exact ⟨hhd.1, hhd.2⟩

theorem checkEftaUrls_ok (l : List String) :
    checkEftaUrls l = .ok () ↔ ∀ u ∈ l, strStartsWith u dojPrefix = true := by
  induction l with
  | nil => simp [checkEftaUrls]
  | cons hd tl ih =>
      by_cases h : strStartsWith hd dojPrefix = true
      · simp [checkEftaUrls, h, ih]
      · simp only [checkEftaUrls, if_neg h]
        constructor
        · intro hx; cases hx
        · intro hx; exact absurd (hx hd (List.mem_cons_self hd tl)) h

/-! ## Generation lemmas -/

theorem generateVerifyGo_error (s : GenState) (uid deadline : String)
    (c : ClaimRecord) (rest : List ClaimRecord) (e : GenErr) :
    ∀ pre : List ClaimRecord, (∀ c2 ∈ pre, claimSkipped s c2.claim_id = true) →
      claimSkipped s c.claim_id = false →
      buildVerifyUnit c uid deadline = .error e →
      generateVerifyGo s uid deadline (pre ++ c :: rest) = .error e
  | [], _, hc, hb => by simp [generateVerifyGo, hc, hb]
  | hd :: tl, hpre, hc, hb => by
      have hskip := hpre hd (List.mem_cons_self hd tl)
      simp only [List.cons_append, generateVerifyGo, hskip, if_true]
      exact generateVerifyGo_error s uid deadline c rest e tl
        (fun c2 h => hpre c2 (List.mem_cons_of_mem _ h)) hc hb

theorem buildDecisionChainUnit_input (ws : Int) (refs : List DocRef)
    (uid deadline : String) (u : WorkUnit)
    (h : buildDecisionChainUnit ws refs uid deadline = .ok u) :
    u.input = .dc { time_window_start := ws, time_window_end := ws + dcWindowDays,
                    data := refs } := by
  unfold buildDecisionChainUnit at h
  cases hv : validateWorkUnit
      { unit_id := uid, type := "decision_chain", path := 3, difficulty := "high",
        scaling := "multiplying", optimal_batch := "20-50 docs (same 30-day period)",
        input := .dc { time_window_start := ws, time_window_end := ws + dcWindowDays,
                       data := refs },
        instructions := dcInstructions, constraints := dcConstraints,
        deadline := deadline, source_verified := false } with
  | error e => simp [mkWorkUnit, hv] at h
  | ok w =>
      simp only [mkWorkUnit, hv, Except.ok.injEq] at h
      rw [← h]

theorem generateDecisionChain_input (s : GenState) (uid deadline : String)
    (u : WorkUnit) (s₂ : GenState)
    (h : generateDecisionChain s uid deadline = .ok (u, s₂)) :
    ∃ start refs,
      selectTimeWindow s.relationships s.activeDcKeys = .ok (start, refs) ∧
      u.input = .dc { time_window_start := start, time_window_end := start + dcWindowDays,
                      data := refs } := by
  unfold generateDecisionChain at h
  cases hw : selectTimeWindow s.relationships s.activeDcKeys with
  | error e => simp [hw] at h
  | ok p =>
      obtain ⟨start, refs⟩ := p
      simp only [hw] at h
      cases hb : buildDecisionChainUnit start refs uid deadline with
      | error e => simp [hb] at h
      | ok u₀ =>
          simp only [hb, Except.ok.injEq, Prod.mk.injEq] at h
          obtain ⟨h1, h2⟩ := h
          subst h1
          exact ⟨start, refs, rfl, buildDecisionChainUnit_input _ _ _ _ _ hb⟩

/-! ## Claim C1 -/

/-- Claim C1 (amended): when a submission passes the PII scan and the
provenance check but its unit already has an accepted finding in the store,
`validate_result` short-circuits in the deduplication step: it reports the
existing finding id and persists no new row, but the returned verdict has
`accepted = false` (the code appends a duplicate-submission error before
returning), not `accepted = true` as the specification states. -/
theorem c1_dedup_rejects_with_existing_id (db : DBState) (store : FindingsStore)
    (sub : ResultSubmission) (fid fid0 : String)
    (hpii : scanForPII (serialiseResult sub) = [])
    (hprov : verifyProvenance db sub.cited_eftas = [])
    (hdup : getAcceptedFindingId store sub.unit_id = some fid0) :
    validateResult db store sub fid =
      .ok ({ accepted := false, quorum_status := "achieved", pii_detected := false,
             errors := [.duplicate sub.unit_id fid0], finding_id := some fid0 },
           store) := by
  simp only [validateResult, hpii, hprov, checkDeduplication, hdup,
    List.isEmpty_nil, Bool.not_true, Bool.false_eq_true, if_false]

set_option maxRecDepth 8000 in
/-- Claim C1 (counterexample): a clean resubmission for unit `u1`, which
already has the accepted finding `f1`, passes the PII scan and the
provenance check, triggers deduplication with the existing id `f1`, writes
no new row — and is returned with `accepted = false`, refuting the
`accepted = true` part of the claim. -/
theorem c1_counterexample :
    scanForPII (serialiseResult c1sub) = [] ∧
    verifyProvenance c1db c1sub.cited_eftas = [] ∧
    getAcceptedFindingId [c1finding] c1sub.unit_id = some "f1" ∧
    validateResult c1db [c1finding] c1sub "f2" =
      .ok ({ accepted := false, quorum_status := "achieved", pii_detected := false,
             errors := [.duplicate "u1" "f1"], finding_id := some "f1" },
           [c1finding]) := by
  refine ⟨by decide, by decide, by decide, by decide⟩

set_option maxRecDepth 8000 in
/-- Claim C1 (witness): the amended theorem evaluated on the concrete
duplicate resubmission. -/
theorem c1_witness :
    validateResult c1db [c1finding] c1sub "f2" =
      .ok ({ accepted := false, quorum_status := "achieved", pii_detected := false,
             errors := [.duplicate "u1" "f1"], finding_id := some "f1" },
           [c1finding]) :=
  c1_dedup_rejects_with_existing_id c1db [c1finding] c1sub "f2" "f1"
    (by decide) (by decide) (by decide)

/-! ## Claim C2 -/

/-- Claim C2 (amended): a submission with non-blank `unit_id`, `worker_id`
and `unit_type` whose full serialisation matches at least one PII pattern is
persisted exactly once with status `quarantined` and returned with
`pii_detected = true`, `accepted = false`, and an error list containing only
the PII findings — provenance and deduplication never run, so they
contribute no errors even when every cited document id is unknown.  When one
of those fields is blank, the pydantic `Finding` validator raises inside the
quarantine branch before anything is stored, so the original unconditional
claim fails (see the counterexample). -/
theorem c2_pii_short_circuit (db : DBState) (store : FindingsStore) (sub : ResultSubmission)
    (fid : String)
    (hpii : scanForPII (serialiseResult sub) ≠ [])
    (hfid : strBlank fid = false)
    (huid : strBlank sub.unit_id = false)
    (hutype : strBlank sub.unit_type = false)
    (hwid : strBlank sub.worker_id = false)
    (hfresh : ∀ g ∈ store, g.finding_id ≠ fid) :
    validateResult db store sub fid =
      .ok ({ accepted := false, quorum_status := "achieved", pii_detected := true,
             errors := (scanForPII (serialiseResult sub)).map
               (fun m => .piiDetected m.pattern_name m.matched_text),
             finding_id := some fid },
           store ++ [mkStoredFinding sub fid "quarantined"]) ∧
    (mkStoredFinding sub fid "quarantined").status = "quarantined" := by
  have h1 : (scanForPII (serialiseResult sub)).isEmpty = false := by
    cases hx : scanForPII (serialiseResult sub) with
    | nil => exact absurd hx hpii
    | cons a l => rfl
  have hmk : mkFinding sub fid "quarantined" =
      .ok (mkStoredFinding sub fid "quarantined") := by
    simp [mkFinding, hfid, huid, hutype, hwid]
  have h2 : store.any
      (fun g => g.finding_id == (mkStoredFinding sub fid "quarantined").finding_id) = false := by
    rw [List.any_eq_false]
    intro g hg
    simpa [mkStoredFinding] using hfresh g hg
  constructor
  · simp only [validateResult, h1, Bool.not_false, if_true, hmk, storeFinding, h2,
      Bool.false_eq_true, if_false]
  · rfl

set_option maxRecDepth 8000 in
/-- Claim C2 (counterexample): the original unconditional claim fails on a
PII-carrying submission whose `unit_id` is blank — the PII scan matches, but
the quarantine branch constructs the pydantic `Finding`, whose non-empty
validator raises, so `validate_result` propagates the `ValidationError` and
persists no row instead of returning a quarantined result. -/
theorem c2_counterexample :
    scanForPII (serialiseResult c2blankSub) ≠ [] ∧
    validateResult c1db [] c2blankSub "finding-001122334455" = .error () := by
  exact ⟨by decide, by decide⟩

set_option maxRecDepth 8000 in
/-- Claim C2 (witness): a well-formed submission whose payload contains the
SSN-shaped string `123-45-6789` and cites an unknown EFTA id is quarantined
with only PII errors and exactly one persisted row. -/
theorem c2_witness :
    scanForPII (serialiseResult c2sub) ≠ [] ∧
    (∀ g ∈ ([] : FindingsStore), g.finding_id ≠ "finding-001122334455") ∧
    validateResult { eftaRanges := [], entities := [] } [] c2sub "finding-001122334455" =
      .ok ({ accepted := false, quorum_status := "achieved", pii_detected := true,
             errors := (scanForPII (serialiseResult c2sub)).map
               (fun m => .piiDetected m.pattern_name m.matched_text),
             finding_id := some "finding-001122334455" },
           [] ++ [mkStoredFinding c2sub "finding-001122334455" "quarantined"]) := by
  refine ⟨by decide, by simp, ?_⟩
  exact (c2_pii_short_circuit { eftaRanges := [], entities := [] } [] c2sub
    "finding-001122334455" (by decide) (by decide) (by decide) (by decide)
    (by decide) (by simp)).1

/-! ## Claim C3 -/

/-- Claim C3: in every reachable generator state, the document-key sets held
by distinct non-completed decision-chain units are pairwise disjoint, and no
two non-completed verify units are bound to the same source claim id. -/
theorem c3_live_units_disjoint (s : GenState) (h : Reachable s) :
    (∀ u₁ u₂ ks₁ ks₂, dlookup s.unitToDocKeys u₁ = some ks₁ →
      dlookup s.unitToDocKeys u₂ = some ks₂ → u₁ ∉ s.completed →
      u₂ ∉ s.completed → u₁ ≠ u₂ → ∀ k ∈ ks₁, k ∉ ks₂) ∧
    (∀ u₁ u₂ cr₁ cr₂, dlookup s.unitToClaim u₁ = some cr₁ →
      dlookup s.unitToClaim u₂ = some cr₂ → u₁ ∉ s.completed →
      u₂ ∉ s.completed → cr₁.claim_id = cr₂.claim_id → u₁ = u₂) := by
  have hinv := reachable_ledgerInv s h
  constructor
  · intro u₁ u₂ ks₁ ks₂ h1 h2 _ _ hne
    exact hinv.utdkDisjoint u₁ u₂ ks₁ ks₂ h1 h2 hne
  · intro u₁ u₂ cr₁ cr₂ h1 h2 hc1 hc2 heq
    have e1 := hinv.liveCtu u₁ cr₁ h1 hc1
    have e2 := hinv.liveCtu u₂ cr₂ h2 hc2
    rw [heq] at e1
    rw [e1] at e2
    exact Option.some.inj e2

set_option maxRecDepth 8000 in
/-- Claim C3 (witness): the state reached by generating one verify unit and
one decision-chain unit from a 20-record corpus is reachable, and the theorem
holds there. -/
theorem c3_witness :
    Reachable c3s2 ∧
    (∀ u₁ u₂ ks₁ ks₂, dlookup c3s2.unitToDocKeys u₁ = some ks₁ →
      dlookup c3s2.unitToDocKeys u₂ = some ks₂ → u₁ ∉ c3s2.completed →
      u₂ ∉ c3s2.completed → u₁ ≠ u₂ → ∀ k ∈ ks₁, k ∉ ks₂) ∧
    (∀ u₁ u₂ cr₁ cr₂, dlookup c3s2.unitToClaim u₁ = some cr₁ →
      dlookup c3s2.unitToClaim u₂ = some cr₂ → u₁ ∉ c3s2.completed →
      u₂ ∉ c3s2.completed → cr₁.claim_id = cr₂.claim_id → u₁ = u₂) := by
  have hre : Reachable c3s2 :=
    Reachable.genDC c3s1 "dc-aabbccdd0011" "d" c3unitD c3s2
      (Reachable.genVerify c3s0 "verify-aabbccdd0011" "d" c8unit c3s1
        (Reachable.init [c8claim] (dcRels 20) (dcRels 20) (by decide))
        (by decide) (by decide))
      (by decide) (by decide)
  have h := c3_live_units_disjoint c3s2 hre
  exact ⟨hre, h.1, h.2⟩

/-! ## Claim C4 -/

/-- Claim C4: `mark_unit_assigned` fails with an unknown-unit error on a
never-registered id, with an already-completed error after completion, and
with an already-assigned error naming the current worker after a successful
assignment (which also leaves the binding on the first worker); on a
registered, uncompleted, unbound unit it binds the worker. -/
theorem c4_assign_state_machine (s : GenState) (uid a b : String) :
    (dlookup s.assignments uid = none →
      markUnitAssigned s uid a = .error (.unknownUnit uid)) ∧
    (∀ s₁, markUnitComplete s uid = .ok s₁ →
      markUnitAssigned s₁ uid a = .error (.alreadyCompleted uid)) ∧
    (∀ s₁, markUnitAssigned s uid a = .ok s₁ →
      markUnitAssigned s₁ uid b = .error (.alreadyAssigned uid a) ∧
      dlookup s₁.assignments uid = some (some a)) ∧
    (dlookup s.assignments uid = some none → uid ∉ s.completed →
      markUnitAssigned s uid a =
        .ok { s with assignments := dset s.assignments uid (some a),
                     assignedEver := setInsert s.assignedEver uid }) := by
  refine ⟨?_, ?_, ?_, ?_⟩
  · intro h; simp [markUnitAssigned, h]
  · intro s₁ h
    unfold markUnitComplete at h
    cases hl : dlookup s.assignments uid with
    | none => simp [hl] at h
    | some w =>
        simp only [hl] at h
        injection h with h
        subst h
        simp [markUnitAssigned, dlookup_dset_self, setInsert_mem]
  · intro s₁ h
    unfold markUnitAssigned at h
    cases hl : dlookup s.assignments uid with
    | none => simp [hl] at h
    | some w =>
        simp only [hl] at h
        by_cases hc : uid ∈ s.completed
        · simp [hc] at h
        · simp only [if_neg hc] at h
          cases w with
          | some w2 => simp at h
          | none =>
              injection h with h
              subst h
              constructor
              · simp [markUnitAssigned, dlookup_dset_self, hc]
              · exact dlookup_dset_self _ _ _
  · intro h hc
    simp [markUnitAssigned, h, hc]

set_option maxRecDepth 8000 in
/-- Claim C4 (witness): the four branches exercised on concrete ledgers —
unknown unit `u0`, successful binding of `u1` to worker `A`, the rejected
second assignment of `u1` to `B`, and the rejected assignment of a completed
unit. -/
theorem c4_witness :
    markUnitAssigned c4state "u0" "A" = .error (.unknownUnit "u0") ∧
    markUnitAssigned c4state "u1" "A" =
      .ok { c4state with assignments := dset c4state.assignments "u1" (some "A"),
                         assignedEver := setInsert c4state.assignedEver "u1" } ∧
    markUnitAssigned
      { c4state with assignments := dset c4state.assignments "u1" (some "A"),
                     assignedEver := setInsert c4state.assignedEver "u1" } "u1" "B" =
      .error (.alreadyAssigned "u1" "A") ∧
    markUnitAssigned c7s1 "u1" "Z" = .error (.alreadyCompleted "u1") := by
  have h4 := (c4_assign_state_machine c4state "u1" "A" "B").2.2.2 (by decide) (by decide)
  have h3 := (c4_assign_state_machine c4state "u1" "A" "B").2.2.1 _ h4
  have h1 := (c4_assign_state_machine c4state "u0" "A" "B").1 (by decide)
  have h2 := (c4_assign_state_machine c7state "u1" "Z" "Z").2.1 c7s1 (by decide)
  exact ⟨h1, h4, h3.1, h2⟩

/-! ## Claim C5 -/

set_option maxRecDepth 8000 in
/-- Claim C5: a successful decision-chain selection returns the first 30-day
bucket (indexed from the minimum surviving date) whose member count reaches
20, truncated to its first 50 members in encounter order, every selected
reference dated inside the window; over any corpus that passed the
relationship filter the selection either succeeds or fails with the
no-available-units error (never an under-sized batch); the unit payload
carries exactly the selected window; 19 usable same-day records yield the
error and 20 yield one unit with all 20 references. -/
theorem c5_time_window_selection :
    (∀ (rels : List RelRecord) (active : List String) (start : Int) (refs : List DocRef),
      selectTimeWindow rels active = .ok (start, refs) →
      ∃ (dr : List (Int × DocRef)) (i : Nat), datedRefs active rels = .ok dr ∧
        start = minDateOf dr + dcWindowDays * (i : Int) ∧
        dcBatchMin ≤ (bucketMembers dr (minDateOf dr) i).length ∧
        (∀ j < i, (bucketMembers dr (minDateOf dr) j).length < dcBatchMin) ∧
        refs = (bucketMembers dr (minDateOf dr) i).take dcBatchMax ∧
        refs.length = min dcBatchMax (bucketMembers dr (minDateOf dr) i).length ∧
        dcBatchMin ≤ refs.length ∧
        ∀ ref ∈ refs, ∃ d, ref.date = some d ∧ start ≤ d ∧ d ≤ start + dcWindowDays) ∧
    (∀ (raw rels : List RelRecord) (active : List String),
      filterRelationships raw = .ok rels →
      selectTimeWindow rels active = .error .noAvailableUnits ∨
      ∃ p, selectTimeWindow rels active = .ok p) ∧
    (∀ (s : GenState) (uid deadline : String) (u : WorkUnit) (s₂ : GenState),
      generateDecisionChain s uid deadline = .ok (u, s₂) →
      ∃ start refs,
        selectTimeWindow s.relationships s.activeDcKeys = .ok (start, refs) ∧
        u.input = .dc { time_window_start := start, time_window_end := start + dcWindowDays,
                        data := refs }) ∧
    selectTimeWindow (dcRels 19) [] = .error .noAvailableUnits ∧
    dcOkRefCount (generateDecisionChain (initGenState [] (dcRels 20)) "dc-aabbccdd0011" "d") =
      some 20 := by
  refine ⟨?_, ?_, generateDecisionChain_input, by decide, by decide⟩
  · intro rels active start refs h
    obtain ⟨dr, i, hdr, -, -, -, hstart, hsz, hmin, hrefs, hlen, hge, hin⟩ :=
      selectTimeWindow_ok rels active start refs h
    exact ⟨dr, i, hdr, hstart, hsz, hmin, hrefs, hlen, hge, hin⟩
  · intro raw rels active hraw
    exact selectTimeWindow_total rels active
      (datedRefs_ne_error active rels
        (fun r hr => relationshipToDocRef_ne_error r
          (filterRelationships_mem raw rels hraw r hr)))

set_option maxRecDepth 8000 in
/-- Claim C5 (witness): 20 usable same-day records produce the window
starting at their common date with all 20 references selected, and the
first clause of the theorem evaluated there. -/
theorem c5_witness :
    selectTimeWindow (dcRels 20) [] = .ok (100, dcRefs20) ∧
    (∃ (dr : List (Int × DocRef)) (i : Nat), datedRefs [] (dcRels 20) = .ok dr ∧
      (100 : Int) = minDateOf dr + dcWindowDays * (i : Int) ∧
      dcBatchMin ≤ (bucketMembers dr (minDateOf dr) i).length ∧
      (∀ j < i, (bucketMembers dr (minDateOf dr) j).length < dcBatchMin) ∧
      dcRefs20 = (bucketMembers dr (minDateOf dr) i).take dcBatchMax ∧
      dcRefs20.length = min dcBatchMax (bucketMembers dr (minDateOf dr) i).length ∧
      dcBatchMin ≤ dcRefs20.length ∧
      ∀ ref ∈ dcRefs20, ∃ d, ref.date = some d ∧ 100 ≤ d ∧ d ≤ 100 + dcWindowDays) := by
  have hsel : selectTimeWindow (dcRels 20) [] = .ok (100, dcRefs20) := by decide
  exact ⟨hsel, c5_time_window_selection.1 (dcRels 20) [] 100 dcRefs20 hsel⟩

/-! ## Claim C6 -/

/-- Claim C6 (amended): verify-payload validation accepts exactly the inputs
with a non-blank claim, a non-empty cited-id list whose every entry starts
with `EFTA` and has length 12, and a same-length URL list of well-formed
canonical URLs; digits in the 8-character suffix are NOT checked, so a unit
whose cited id has a non-digit suffix is constructed and returned (the
digit check lives only in the URL builder, which is not part of
validation); and a constructed unit is always one that passed validation. -/
theorem c6_verify_input_validation :
    (∀ v : VerifyInput, validateVerifyInput v = .ok () ↔
      strBlank v.claim = false ∧ v.cited_eftas ≠ [] ∧
      (∀ e ∈ v.cited_eftas, strStartsWith e "EFTA" = true ∧ e.length = 12) ∧
      v.efta_urls.length = v.cited_eftas.length ∧
      (∀ u ∈ v.efta_urls, strStartsWith u dojPrefix = true)) ∧
    (∀ w w₂ : WorkUnit, mkWorkUnit w = .ok w₂ →
      w₂ = w ∧ validateWorkUnit w = .ok ()) := by
  constructor
  · intro v
    unfold validateVerifyInput
    by_cases h1 : strBlank v.claim = true
    · simp [h1]
    · rw [Bool.not_eq_true] at h1
      by_cases h2 : v.cited_eftas.length = 0
      · simp [h1, h2, List.length_eq_zero.mp h2]
      · have h2b : v.cited_eftas ≠ [] := fun hx => h2 (by simp [hx])
        rw [if_neg (by simp [h1]), if_neg h2]
        cases hce : checkCitedEftas v.cited_eftas with
        | error e =>
            constructor
            · intro hx; cases hx
            · rintro ⟨-, -, hall, -, -⟩
              rw [(checkCitedEftas_ok _).mpr hall] at hce
              cases hce
        | ok u0 =>
            obtain ⟨⟩ := u0
            have hok := (checkCitedEftas_ok v.cited_eftas).mp hce
            by_cases h3 : v.efta_urls.length = v.cited_eftas.length
            · rw [if_neg (by simp [h3])]
              constructor
              · intro hurls
                exact ⟨h1, h2b, hok, h3, (checkEftaUrls_ok _).mp hurls⟩
              · rintro ⟨-, -, -, -, hurls⟩
                exact (checkEftaUrls_ok _).mpr hurls
            · rw [if_pos h3]
              constructor
              · intro hx; cases hx
              · rintro ⟨-, -, -, hlen, -⟩
                exact absurd hlen h3
  · intro w w₂ h
    unfold mkWorkUnit at h
    cases hv : validateWorkUnit w with
    | error e => rw [hv] at h; exact Except.noConfusion h
    | ok u0 =>
        rw [hv] at h
        obtain ⟨⟩ := u0
        have h2 : (Except.ok w : Except WErr WorkUnit) = Except.ok w₂ := h
        injection h2 with h3
        exact ⟨h3.symm, rfl⟩

set_option maxRecDepth 8000 in
/-- Claim C6 (counterexample): the cited id `EFTAabcdefgh` is EFTA-prefixed
and 12 characters long but its suffix holds no digit — validation accepts it
and the dataclass constructor returns the unit, refuting the clause that
construction fails for every suffix containing non-digit characters. -/
theorem c6_counterexample :
    validateVerifyInput c6input = .ok () ∧ (mkWorkUnit c6unit).isOk = true := by
  exact ⟨by decide, by decide⟩

set_option maxRecDepth 8000 in
/-- Claim C6 (witness): the amended theorem evaluated on the concrete
payload and unit. -/
theorem c6_witness :
    validateVerifyInput c6input = .ok () ∧
    c6unit = c6unit ∧ validateWorkUnit c6unit = .ok () := by
  refine ⟨(c6_verify_input_validation.1 c6input).mpr (by decide),
    c6_verify_input_validation.2 c6unit c6unit (by decide)⟩

/-! ## Claim C7 -/

/-- Claim C7: `mark_unit_complete` fails with an unknown-unit error on a
never-registered id; on a registered id it adds the unit to the completed
set, clears the worker binding, releases the claim slot held by the unit,
removes the unit from the doc-key table and its keys from the active set;
and a second completion of the same unit succeeds and leaves the ledger
unchanged (idempotence). -/
theorem c7_complete_release_idempotent (s : GenState) (uid : String) :
    (dlookup s.assignments uid = none →
      markUnitComplete s uid = .error (.unknownUnit uid)) ∧
    (∀ s₁, markUnitComplete s uid = .ok s₁ →
      uid ∈ s₁.completed ∧
      dlookup s₁.assignments uid = some none ∧
      (∀ cr, dlookup s.unitToClaim uid = some cr →
        dlookup s.claimToUnit cr.claim_id = some uid →
        dlookup s₁.claimToUnit cr.claim_id = none) ∧
      dlookup s₁.unitToDocKeys uid = none ∧
      s₁.activeDcKeys = setDiff s.activeDcKeys ((dlookup s.unitToDocKeys uid).getD []) ∧
      markUnitComplete s₁ uid = .ok s₁) := by
  constructor
  · intro h; simp [markUnitComplete, h]
  · intro s₁ h
    unfold markUnitComplete at h
    cases hl : dlookup s.assignments uid with
    | none => simp [hl] at h
    | some w =>
        simp only [hl] at h
        injection h with h
        subst h
        refine ⟨setInsert_mem _ _, dlookup_dset_self _ _ _, ?_, ?_, rfl, ?_⟩
        · intro cr hcr hcu
          simp only [hcr, hcu, if_pos]
          simp [dlookup_derase]
        · simp [dlookup_derase]
        · have hassign : dlookup (dset s.assignments uid none) uid = some none :=
            dlookup_dset_self _ _ _
          have hdock : dlookup (derase s.unitToDocKeys uid) uid = none := by
            simp [dlookup_derase]
          cases hcu : dlookup s.unitToClaim uid with
          | none =>
              simp only [markUnitComplete, hcu, hassign, hdock, Option.getD_none,
                setDiff_nil, derase_derase,
                setInsert_idem_of_mem _ _ (setInsert_mem s.completed uid),
                dset_eq_of_lookup _ _ _ hassign]
          | some cr =>
              by_cases hcd : dlookup s.claimToUnit cr.claim_id = some uid
              · have h2 : dlookup (derase s.claimToUnit cr.claim_id) cr.claim_id = none := by
                  simp [dlookup_derase]
                simp only [markUnitComplete, hcu, hassign, hdock, hcd, if_pos,
                  Option.getD_none, setDiff_nil, derase_derase, h2,
                  setInsert_idem_of_mem _ _ (setInsert_mem s.completed uid),
                  dset_eq_of_lookup _ _ _ hassign]
                simp
              · simp only [markUnitComplete, hcu, hassign, hdock, if_neg hcd,
                  Option.getD_none, setDiff_nil, derase_derase,
                  setInsert_idem_of_mem _ _ (setInsert_mem s.completed uid),
                  dset_eq_of_lookup _ _ _ hassign]

set_option maxRecDepth 8000 in
/-- Claim C7 (witness): the theorem evaluated on a ledger with one assigned
unit holding a claim slot and locked doc keys, plus the unknown-unit branch
on an unregistered id. -/
theorem c7_witness :
    markUnitComplete c4state "u0" = .error (.unknownUnit "u0") ∧
    markUnitComplete c7state "u1" = .ok c7s1 ∧
    ("u1" ∈ c7s1.completed ∧
      dlookup c7s1.assignments "u1" = some none ∧
      (∀ cr, dlookup c7state.unitToClaim "u1" = some cr →
        dlookup c7state.claimToUnit cr.claim_id = some "u1" →
        dlookup c7s1.claimToUnit cr.claim_id = none) ∧
      dlookup c7s1.unitToDocKeys "u1" = none ∧
      c7s1.activeDcKeys = setDiff c7state.activeDcKeys
        ((dlookup c7state.unitToDocKeys "u1").getD []) ∧
      markUnitComplete c7s1 "u1" = .ok c7s1) := by
  have hok : markUnitComplete c7state "u1" = .ok c7s1 := by decide
  exact ⟨(c7_complete_release_idempotent c4state "u0").1 (by decide), hok,
    (c7_complete_release_idempotent c7state "u1").2 c7s1 hok⟩

/-! ## Claim C8 -/

/-- Claim C8 (amended): `get_status` returns the five counts computed from
the ledger; in every reachable state `completed ≤ generated` and
`currently-assigned ≤ assigned-ever ≤ generated` hold — but the claimed
invariant `completed ≤ assigned-ever` is FALSE, because a never-assigned
unit can be completed (see the counterexample). -/
theorem c8_status_counts_bounds (s : GenState) (h : Reachable s) :
    getStatus s = { total_claims := s.claims.length,
                    total_relationships := s.relationships.length,
                    total_generated := s.assignments.length,
                    total_assigned :=
                      (s.assignments.filter
                        (fun p => p.2.isSome && !(s.completed.contains p.1))).length,
                    total_completed := s.completed.length } ∧
    (getStatus s).total_completed ≤ (getStatus s).total_generated ∧
    s.assignedEver.length ≤ (getStatus s).total_generated ∧
    (getStatus s).total_assigned ≤ s.assignedEver.length := by
  have hc := c8_counts s (reachable_ledgerInv s h)
  exact ⟨rfl, hc.1, hc.2.1, hc.2.2⟩

set_option maxRecDepth 8000 in
/-- Claim C8 (counterexample): a generated unit completed without ever being
assigned yields a reachable state with one completed unit and an empty
assigned-ever history, refuting `completed ≤ assigned-ever`. -/
theorem c8_counterexample :
    Reachable c8s2 ∧ (getStatus c8s2).total_completed = 1 ∧
    c8s2.assignedEver.length = 0 ∧
    ¬((getStatus c8s2).total_completed ≤ c8s2.assignedEver.length) := by
  refine ⟨?_, by decide, by decide, by decide⟩
  exact Reachable.complete c8s1 "verify-aabbccdd0011" c8s2
    (Reachable.genVerify c8s0 "verify-aabbccdd0011" "d" c8unit c8s1
      (Reachable.init [c8claim] [] [] rfl) (by decide) (by decide))
    (by decide)

set_option maxRecDepth 8000 in
/-- Claim C8 (witness): the amended theorem evaluated on the concrete
reachable state `c8s2`. -/
theorem c8_witness :
    getStatus c8s2 =
      { total_claims := c8s2.claims.length,
        total_relationships := c8s2.relationships.length,
        total_generated := c8s2.assignments.length,
        total_assigned :=
          (c8s2.assignments.filter
            (fun p => p.2.isSome && !(c8s2.completed.contains p.1))).length,
        total_completed := c8s2.completed.length } ∧
    (getStatus c8s2).total_completed ≤ (getStatus c8s2).total_generated ∧
    c8s2.assignedEver.length ≤ (getStatus c8s2).total_generated ∧
    (getStatus c8s2).total_assigned ≤ c8s2.assignedEver.length := by
  exact c8_status_counts_bounds c8s2
    (Reachable.complete c8s1 "verify-aabbccdd0011" c8s2
      (Reachable.genVerify c8s0 "verify-aabbccdd0011" "d" c8unit c8s1
        (Reachable.init [c8claim] [] [] rfl) (by decide) (by decide))
      (by decide))

/-! ## Claim C9 -/

/-- Claim C9: if the first non-skipped claim in the corpus fails the verify
unit build (no cited ids, length mismatch, or malformed numeric suffix),
`generate_unit` propagates that error — later well-formed claims are not
tried, no registration write happens, and the returned value carries no new
state. -/
theorem c9_build_error_propagates (s : GenState) (uid deadline : String)
    (pre : List ClaimRecord) (c : ClaimRecord) (rest : List ClaimRecord) (e : GenErr)
    (hclaims : s.claims = pre ++ c :: rest)
    (hpre : ∀ c2 ∈ pre, claimSkipped s c2.claim_id = true)
    (hc : claimSkipped s c.claim_id = false)
    (hbuild : buildVerifyUnit c uid deadline = .error e) :
    generateVerifyFinding s uid deadline = .error e ∧
    generateUnit s "verify_finding" uid deadline = .error e := by
  have h1 : generateVerifyFinding s uid deadline = .error e := by
    unfold generateVerifyFinding
    rw [hclaims]
    exact generateVerifyGo_error s uid deadline c rest e pre hpre hc hbuild
  refine ⟨h1, ?_⟩
  unfold generateUnit
  rw [if_pos rfl]
  exact h1

set_option maxRecDepth 8000 in
/-- Claim C9 (witness): a corpus whose first claim cites no documents while
the second would build a valid unit — generation raises the no-cited-ids
error for the first claim instead of skipping to the second. -/
theorem c9_witness :
    (buildVerifyUnit c9goodClaim "verify-aabbccdd0011" "d").isOk = true ∧
    generateVerifyFinding c9state "verify-aabbccdd0011" "d" =
      .error (.buildNoCited "c-bad") ∧
    generateUnit c9state "verify_finding" "verify-aabbccdd0011" "d" =
      .error (.buildNoCited "c-bad") := by
  have h := c9_build_error_propagates c9state "verify-aabbccdd0011" "d" [] c9badClaim
    [c9goodClaim] (.buildNoCited "c-bad") rfl (by simp) (by decide) (by decide)
  exact ⟨by decide, h.1, h.2⟩

/-! ## Claim C10 -/

/-- Claim C10: the relationship filter raises exactly when some record has a
present dataset value that `int()` cannot convert; on corpora free of such
records it purely filters, keeping order (a sublist of the input) and
dropping exactly the records on dataset 10 or with a media-file suffix on an
identifier field. -/
theorem c10_filter_relationships :
    (∀ r : RelRecord, relKeep r = .error () ↔
      ∃ v, relDatasetRaw r = some v ∧ pyToInt v = none) ∧
    (∀ rels : List RelRecord, filterRelationships rels = .error () ↔
      ∃ r ∈ rels, relKeep r = .error ()) ∧
    (∀ rels : List RelRecord, (∀ r ∈ rels, relKeep r ≠ .error ()) →
      filterRelationships rels = .ok (rels.filter (fun r => relKeep r == .ok true)) ∧
      (rels.filter (fun r => relKeep r == .ok true)).Sublist rels) ∧
    (∀ r : RelRecord, relKeep r ≠ .error () →
      (relKeep r = .ok false ↔
        (∃ v, relDatasetRaw r = some v ∧ pyToInt v = some ds10Dataset) ∨
        relSuffixExcluded r = true)) := by
  refine ⟨relKeep_error_iff, filterRelationships_error_iff, ?_, relKeep_false_iff⟩
  intro rels h
  exact ⟨filterRelationships_ok rels h, List.filter_sublist rels⟩

set_option maxRecDepth 8000 in
/-- Claim C10 (witness): on the three-record corpus the filter keeps exactly
the usable record, and adding a record whose dataset value is the
unconvertible string `ten` makes the whole construction raise. -/
theorem c10_witness :
    (filterRelationships c10rels = .ok (c10rels.filter (fun r => relKeep r == .ok true)) ∧
      (c10rels.filter (fun r => relKeep r == .ok true)).Sublist c10rels) ∧
    c10rels.filter (fun r => relKeep r == .ok true) = [c10relA] ∧
    filterRelationships (c10relBad :: c10rels) = .error () := by
  refine ⟨c10_filter_relationships.2.2.1 c10rels (by decide), by decide, ?_⟩
  exact (c10_filter_relationships.2.1 (c10relBad :: c10rels)).mpr
    ⟨c10relBad, List.mem_cons_self _ _, by decide⟩
